import Mathlib

/-
Verification of the ElderCare turn-orchestration engine.

This file gives a shallow embedding, in Lean 4, of the parts of the
repository that the specification's claims are about:

  * app/agent/agent_graph.py : the decision node, the tolerant
    structured-output extraction helper, the fact-extraction node, the
    query-facts resolver, the Spotify / Gmail action nodes and the
    response composer;
  * app/crud/crud_entity.py  : the entity store (create / get / merge);
  * app/services/spotify_service.py : the thin result-normalising
    wrappers around the external Spotify capability.

Python strings are modelled as Lean `String` / `List Char`; Python dicts
carrying open JSON data as association lists `List (String × Json)`
(looked up by first occurrence, as Python dicts have unique keys);
Python `None`-able values as `Option`; the external LLM / tool
collaborators as explicit oracle arguments to the node functions, with
an invocation log returned so that "the capability was (not) invoked"
is an observable fact.  `str.lower` / `str.strip` are modelled on the
ASCII fragment, and the JSON decoder models the fragment of Python's
`json.raw_decode` without floats or `\u` escapes; every theorem below
stays inside that fragment.
-/

namespace ElderCare

/-! ### Characters and Python-style string helpers -/

/-- Whitespace accepted by Python's `json` module between tokens. -/
def jsonWsChar (c : Char) : Bool :=
  c.toNat = 32 || c.toNat = 9 || c.toNat = 10 || c.toNat = 13

/-- Whitespace matched by the regex class `\s` (and, on the ASCII
fragment, stripped by `str.strip`). -/
def reWsChar (c : Char) : Bool :=
  jsonWsChar c || c.toNat = 11 || c.toNat = 12

/-- ASCII `str.lower` on one character. -/
def lowerChar (c : Char) : Char :=
  if 65 ≤ c.toNat ∧ c.toNat ≤ 90 then Char.ofNat (c.toNat + 32) else c

/-- ASCII model of Python `str.lower`. -/
def pyLower (s : String) : String := String.mk (s.data.map lowerChar)

/-- Drop JSON whitespace from the front of a character list. -/
def dropWs (l : List Char) : List Char := List.dropWhile jsonWsChar l

/-- Left strip, regex/`str.strip` whitespace. -/
def trimL (l : List Char) : List Char := List.dropWhile reWsChar l

/-- Right strip, regex/`str.strip` whitespace. -/
def trimR (l : List Char) : List Char := (List.dropWhile reWsChar l.reverse).reverse

/-- Model of Python `str.strip` on a character list. -/
def pyStripL (l : List Char) : List Char := trimR (trimL l)

/-- Model of Python `str.strip` on a `String`. -/
def pyStripS (s : String) : String := String.mk (pyStripL s.data)

/-- First occurrence of `pat` in a character list: the characters before
it, and the characters after it (the occurrence itself removed).  `none`
when `pat` does not occur. -/
def splitAtSub (pat : List Char) : List Char → Option (List Char × List Char)
  | [] => if pat.isEmpty then some ([], []) else none
  | c :: rest =>
    if pat.isPrefixOf (c :: rest) then some ([], (c :: rest).drop pat.length)
    else (splitAtSub pat rest).map (fun p => (c :: p.1, p.2))

/-- Python's substring test `pat in s`, on character lists. -/
def hasSub (pat l : List Char) : Bool := (splitAtSub pat l).isSome

/-- Python's substring test on `String`s. -/
def strIn (pat s : String) : Bool := hasSub pat.data s.data

/-! ### The JSON value model -/

/-- JSON data as produced by `json.raw_decode` (floats excluded: the
numeric literals of this development are integers). -/
inductive Json where
  | null
  | jbool (b : Bool)
  | jnum (n : Int)
  | jstr (s : String)
  | jarr (elems : List Json)
  | jobj (entries : List (String × Json))

/-- First-occurrence key lookup in a decoded JSON object, i.e. Python
`d.get(k)` (Python dicts have unique keys, so first occurrence is the
occurrence). -/
def lookupJ (kvs : List (String × Json)) (k : String) : Option Json :=
  match kvs with
  | [] => none
  | (k2, v) :: rest => if k2 = k then some v else lookupJ rest k

/-- Python truthiness of a decoded JSON value. -/
def jsonTruthy : Json → Bool
  | .null => false
  | .jbool b => b
  | .jnum n => n ≠ 0
  | .jstr s => s ≠ ""
  | .jarr l => ¬ l.isEmpty
  | .jobj l => ¬ l.isEmpty

/-- Decimal digit character (`digitChar d` is the digit for `d % 10`-style
uses; callers only apply it to `d < 10`). -/
def digitChar (d : Nat) : Char :=
  match d with
  | 0 => '0' | 1 => '1' | 2 => '2' | 3 => '3' | 4 => '4'
  | 5 => '5' | 6 => '6' | 7 => '7' | 8 => '8' | _ => '9'

/-- Decimal rendering of a natural number, most significant digit first
(the digits Python prints for a nonnegative `int`). -/
def natRender (n : Nat) : List Char :=
  if h : n < 10 then [digitChar n]
  else natRender (n / 10) ++ [digitChar (n % 10)]
termination_by n
decreasing_by exact Nat.div_lt_self (by omega) (by omega)

/-- Decimal rendering of an integer, as Python `str(int)`. -/
def intRender (n : Int) : List Char :=
  if n < 0 then '-' :: natRender (-n).toNat else natRender n.toNat

mutual
/-- Python `str()` of a decoded JSON value (used by the source through
f-strings): a string is itself, anything else is its `repr`. -/
def pyStr : Json → String
  | .jstr s => s
  | j => pyRepr j

/-- Python `repr()` of a decoded JSON value. -/
def pyRepr : Json → String
  | .null => "None"
  | .jbool true => "True"
  | .jbool false => "False"
  | .jnum n => String.mk (intRender n)
  | .jstr s => "\x27" ++ s ++ "\x27"
  | .jarr xs => "[" ++ pyReprArr xs ++ "]"
  | .jobj kvs => "\x7b" ++ pyReprObj kvs ++ "\x7d"

/-- Comma-joined `repr`s of array elements. -/
def pyReprArr : List Json → String
  | [] => ""
  | [x] => pyRepr x
  | x :: rest => pyRepr x ++ ", " ++ pyReprArr rest

/-- Comma-joined `repr`s of object members. -/
def pyReprObj : List (String × Json) → String
  | [] => ""
  | [(k, v)] => "\x27" ++ k ++ "\x27: " ++ pyRepr v
  | (k, v) :: rest => "\x27" ++ k ++ "\x27: " ++ pyRepr v ++ ", " ++ pyReprObj rest
end

/-- Shallow dict update: `d.copy()` followed by `d.update(m)` — existing
keys keep their place but take `m`'s value when present there; keys new
in `m` are appended in `m`'s order.  This is the merge kernel of
`crud_entity.merge_user_entity_details`. -/
def dictUpdate (d m : List (String × Json)) : List (String × Json) :=
  (d.map fun kv => match lookupJ m kv.1 with
    | some v => (kv.1, v)
    | none => kv)
  ++ m.filter (fun kv => (lookupJ d kv.1).isNone)

/-! ### The JSON decoder (model of Python `json.JSONDecoder().raw_decode`)

`raw_decode` parses one complete JSON value from the start of the text
and returns it with the index where it stopped — it does *not* require
the value to be the whole string.  The model below covers the fragment
the agent exchanges with its models: objects, arrays, escape-light
strings, integers, `true`/`false`/`null`. -/

/-- Decimal digit test (the `[0-9]` of the JSON number grammar). -/
def isDigitC (c : Char) : Bool := 48 ≤ c.toNat && c.toNat ≤ 57

/-- Value of a decimal digit character. -/
def digitVal (c : Char) : Nat := c.toNat - 48

/-- Accumulate a maximal run of decimal digits. -/
def parseDigitsAux : List Char → Nat → Nat × List Char
  | [], acc => (acc, [])
  | c :: rest, acc =>
    if isDigitC c then parseDigitsAux rest (acc * 10 + digitVal c) else (acc, c :: rest)

/-- Parse a nonnegative decimal number (at least one digit). -/
def parseNatNum : List Char → Option (Nat × List Char)
  | [] => none
  | c :: rest => if isDigitC c then some (parseDigitsAux rest (digitVal c)) else none

/-- Parse a JSON integer (optional leading minus). -/
def parseNum (l : List Char) : Option (Int × List Char) :=
  match l with
  | [] => none
  | c :: rest =>
    if c.toNat = 45 then (parseNatNum rest).map (fun p => (-(p.1 : Int), p.2))
    else (parseNatNum (c :: rest)).map (fun p => ((p.1 : Int), p.2))

/-- Parse the body of a JSON string after the opening quote, handling the
`\"`, `\\`, `\n`, `\t` escapes; other escapes are outside the modelled
fragment and fail. -/
def parseStrBodyAux : List Char → Option (List Char × List Char)
  | [] => none
  | c :: rest =>
    if c.toNat = 34 then some ([], rest)
    else if c.toNat = 92 then
      match rest with
      | [] => none
      | e :: r2 =>
        if e.toNat = 34 ∨ e.toNat = 92 then
          (parseStrBodyAux r2).map (fun p => (e :: p.1, p.2))
        else if e.toNat = 110 then
          (parseStrBodyAux r2).map (fun p => ('\n' :: p.1, p.2))
        else if e.toNat = 116 then
          (parseStrBodyAux r2).map (fun p => ('\t' :: p.1, p.2))
        else none
    else (parseStrBodyAux rest).map (fun p => (c :: p.1, p.2))

mutual
/-- Parse one JSON value from the start of the input (no leading
whitespace skip, exactly as `raw_decode` at index 0). -/
def parseValue : Nat → List Char → Option (Json × List Char)
  | 0, _ => none
  | fuel + 1, l =>
    match l with
    | [] => none
    | c :: rest =>
      if c.toNat = 123 then
        match dropWs rest with
        | d :: r1 =>
          if d.toNat = 125 then some (.jobj [], r1)
          else parseMembers fuel (d :: r1) |>.map (fun p => (Json.jobj p.1, p.2))
        | [] => none
      else if c.toNat = 91 then
        match dropWs rest with
        | d :: r1 =>
          if d.toNat = 93 then some (.jarr [], r1)
          else parseElems fuel (d :: r1) |>.map (fun p => (Json.jarr p.1, p.2))
        | [] => none
      else if c.toNat = 34 then
        (parseStrBodyAux rest).map (fun p => (Json.jstr (String.mk p.1), p.2))
      else if c = 't' then
        if "rue".data.isPrefixOf rest then some (.jbool true, rest.drop 3) else none
      else if c = 'f' then
        if "alse".data.isPrefixOf rest then some (.jbool false, rest.drop 4) else none
      else if c = 'n' then
        if "ull".data.isPrefixOf rest then some (.null, rest.drop 3) else none
      else (parseNum (c :: rest)).map (fun p => (Json.jnum p.1, p.2))

/-- Parse the members of a JSON object, positioned at the first key. -/
def parseMembers : Nat → List Char → Option (List (String × Json) × List Char)
  | 0, _ => none
  | fuel + 1, l =>
    match l with
    | c :: rest =>
      if c.toNat = 34 then
        match parseStrBodyAux rest with
        | none => none
        | some (k, r1) =>
          match dropWs r1 with
          | d :: r2 =>
            if d.toNat = 58 then
              match parseValue fuel (dropWs r2) with
              | none => none
              | some (v, r3) =>
                match dropWs r3 with
                | e :: r4 =>
                  if e.toNat = 44 then
                    (parseMembers fuel (dropWs r4)).map
                      (fun p => ((String.mk k, v) :: p.1, p.2))
                  else if e.toNat = 125 then some ([(String.mk k, v)], r4)
                  else none
                | [] => none
            else none
          | [] => none
      else none
    | [] => none

/-- Parse the elements of a JSON array, positioned at the first element. -/
def parseElems : Nat → List Char → Option (List Json × List Char)
  | 0, _ => none
  | fuel + 1, l =>
    match parseValue fuel l with
    | none => none
    | some (v, r1) =>
      match dropWs r1 with
      | e :: r2 =>
        if e.toNat = 44 then
          (parseElems fuel (dropWs r2)).map (fun p => (v :: p.1, p.2))
        else if e.toNat = 93 then some ([v], r2)
        else none
      | [] => none
end

/-- Model of `json.JSONDecoder().raw_decode`: the decoded value plus the
unconsumed remainder (trailing text is ignored, not an error). -/
def rawDecode (l : List Char) : Option (Json × List Char) :=
  parseValue (2 * l.length + 4) l

/-! ### The tolerant-extraction pipeline of `agent_graph.py`

Models of the regular-expression searches the source performs on raw
model completions:

  * `re.sub(r"<think>.*?</think>", "", s, flags=re.DOTALL)` — repeatedly
    delete from the leftmost `<think>` to the first `</think>` after it;
  * `re.search(r"`​``json\s*(\{.*?\})\s*`​``", s, re.DOTALL)` — leftmost
    occurrence of the fence opener followed by whitespace and `{`; the
    lazy group ends at the first `}` that is followed (after whitespace)
    by a closing fence;
  * `re.search(r"(\{.*?\})", s, re.DOTALL)` — from the first `{` to the
    first `}` after it (laziness stops the group at the *first* closing
    brace, which is what truncates nested objects). -/

/-- The reasoning-sidecar opening delimiter. -/
def thinkOpen : List Char := "<think>".data

/-- The reasoning-sidecar closing delimiter. -/
def thinkClose : List Char := "</think>".data

/-- Iteratively remove `<think> … </think>` blocks (the `re.sub`). -/
def stripThinkAux : Nat → List Char → List Char
  | 0, l => l
  | fuel + 1, l =>
    match splitAtSub thinkOpen l with
    | none => l
    | some (pre1, rest1) =>
      match splitAtSub thinkClose rest1 with
      | none => l
      | some (_, rest2) => pre1 ++ stripThinkAux fuel rest2

/-- String-level wrapper for the sidecar-stripping substitution. -/
def stripThinkS (s : String) : String := String.mk (stripThinkAux s.data.length s.data)

/-- The fenced-JSON opener `​```json`. -/
def fenceOpen : List Char := "\x60\x60\x60json".data

/-- A closing fence `​```. -/
def fenceClose : List Char := "\x60\x60\x60".data

/-- Scan for the end of the lazy fenced group: the first `}` followed,
after `\s*`, by a closing fence.  Returns the body up to and including
that brace. -/
def fenceGroupEnd : List Char → Option (List Char)
  | [] => none
  | c :: rest =>
    if c.toNat = 125 && fenceClose.isPrefixOf (List.dropWhile reWsChar rest) then some [c]
    else (fenceGroupEnd rest).map (fun g => c :: g)

/-- Leftmost match of the fenced-JSON pattern; yields the brace group. -/
def fenceSearchAux : List Char → Option (List Char)
  | [] => none
  | c :: rest =>
    match
      (if fenceOpen.isPrefixOf (c :: rest) then
        match List.dropWhile reWsChar ((c :: rest).drop fenceOpen.length) with
        | d :: body => if d.toNat = 123 then (fenceGroupEnd body).map (fun g => d :: g) else none
        | [] => none
      else none) with
    | some g => some g
    | none => fenceSearchAux rest

/-- Collect up to and including the first `}` (the lazy bare group). -/
def bareGroupEnd : List Char → Option (List Char)
  | [] => none
  | c :: rest =>
    if c.toNat = 125 then some [c]
    else (bareGroupEnd rest).map (fun g => c :: g)

/-- Leftmost match of the bare pattern `(\{.*?\})`: from the first `{` to
the first `}` after it. -/
def bareSearchAux : List Char → Option (List Char)
  | [] => none
  | c :: rest =>
    if c.toNat = 123 then (bareGroupEnd rest).map (fun g => c :: g)
    else bareSearchAux rest

/-- The fence-first, bare-fallback candidate search of the source
(`re.search(fenced) or re.search(bare)`). -/
def extractJsonCandidate (l : List Char) : Option (List Char) :=
  match fenceSearchAux l with
  | some g => some g
  | none => bareSearchAux l

/-- Typed failure of the structured-output extractor, naming the step
that failed (no JSON-looking span / JSON decode error / schema
validation error). -/
inductive ExtractFailure where
  | noJson
  | parseError
  | validationError
deriving DecidableEq

/-- Model of `_extract_parameters_with_llm`'s text-to-validated-object
section: strip the completion, delete reasoning sidecars, locate a brace
candidate (fenced first, then bare), `raw_decode` it, and validate the
decoded object; each failing step becomes a typed failure, never an
exception. -/
def extractStructured {α : Type} (validate : Json → Option α) (raw : String) :
    Except ExtractFailure α :=
  let content := pyStripL raw.data
  let stripped := pyStripL (stripThinkAux content.length content)
  match extractJsonCandidate stripped with
  | none => .error .noJson
  | some cand =>
    match rawDecode (pyStripL cand) with
    | none => .error .parseError
    | some (j, _) =>
      match validate j with
      | none => .error .validationError
      | some v => .ok v

/-- Outcome of the inline extraction in `extract_general_facts_node`. -/
inductive FactsParseResult where
  | ok (entities : List Json)
  | noJson
  | parseErr
  | notAList
  | notADict

/-- Model of the inline completion-processing of
`extract_general_facts_node` (lines 156–167): sidecar-strip + strip,
candidate search, `raw_decode`, then `parsed.get("identified_entities",
[])` with a list check. -/
def factsParse (raw : String) : FactsParseResult :=
  let stripped := pyStripL (stripThinkAux raw.data.length raw.data)
  match extractJsonCandidate stripped with
  | none => .noJson
  | some cand =>
    match rawDecode (pyStripL cand) with
    | none => .parseErr
    | some (j, _) =>
      match j with
      | .jobj kvs =>
        match (lookupJ kvs "identified_entities").getD (.jarr []) with
        | .jarr l => .ok l
        | _ => .notAList
      | _ => .notADict

/-- Whether the general-facts extraction failed (any non-`ok` outcome). -/
def factsParseFailed (raw : String) : Bool :=
  match factsParse raw with
  | .ok _ => false
  | _ => true

/-! ### A canonical flat-object serializer

Used only in theorem statements: it produces the standard textual form
`{"k": v, "k2": v2}` of a flat JSON object, so that theorems can
quantify over *all* flat objects a model completion may embed. -/

/-- Opening brace character. -/
def lbrace : Char := Char.ofNat 123

/-- Closing brace character. -/
def rbrace : Char := Char.ofNat 125

/-- Double-quote character. -/
def quoteC : Char := Char.ofNat 34

/-- Serialize a scalar JSON value (string or integer; the flat fragment). -/
def renderVal : Json → List Char
  | .jstr s => quoteC :: s.data ++ [quoteC]
  | .jnum n => intRender n
  | _ => []

/-- Serialize one `"key": value` member. -/
def renderEntry (kv : String × Json) : List Char :=
  quoteC :: kv.1.data ++ quoteC :: ':' :: ' ' :: renderVal kv.2

/-- Serialize the comma-separated members of an object. -/
def renderMembers : List (String × Json) → List Char
  | [] => []
  | [e] => renderEntry e
  | e :: rest => renderEntry e ++ ',' :: ' ' :: renderMembers rest

/-- Serialize a whole flat object, braces included. -/
def renderObjChars (kvs : List (String × Json)) : List Char :=
  lbrace :: renderMembers kvs ++ [rbrace]

/-- `String` form of `renderObjChars`. -/
def renderObjStr (kvs : List (String × Json)) : String :=
  String.mk (renderObjChars kvs)

/-- Characters allowed in the keys and string values of the quantified
flat objects: anything except `"`, `\`, the braces, the backtick and
`<` (which would interact with the fence / sidecar / brace searches). -/
def goodChar (c : Char) : Bool :=
  c.toNat != 34 && c.toNat != 92 && c.toNat != 123 &&
  c.toNat != 125 && c.toNat != 96 && c.toNat != 60

/-- A scalar value of the flat fragment with benign characters. -/
def flatVal : Json → Bool
  | .jnum _ => true
  | .jstr s => s.data.all goodChar
  | _ => false

/-- A flat object: every key benign, every value a benign scalar. -/
def flatOk (kvs : List (String × Json)) : Bool :=
  kvs.all fun kv => kv.1.data.all goodChar && flatVal kv.2

/-! ### The entity store (`app/crud/crud_entity.py`) -/

/-- A row of the `user_entities` table. -/
structure UserEntity where
  id : Nat
  user_id : Nat
  entity_type : String
  details_json : Json

/-- `get_user_entity_by_id`: first row with the given id. -/
def getUserEntityById (db : List UserEntity) (eid : Nat) : Option UserEntity :=
  (db.filter (fun e => decide (e.id = eid))).head?

/-- `create_user_entity`: rejects non-dict details (the `ValueError`),
otherwise appends a fresh row.  Returns the created row and the new
table. -/
def createUserEntity (db : List UserEntity) (uid : Nat) (etype : String) (details : Json) :
    Option (UserEntity × List UserEntity) :=
  match details with
  | .jobj _ =>
    let nid := (db.map (fun e => e.id)).foldl max 0 + 1
    let e : UserEntity := ⟨nid, uid, etype, details⟩
    some (e, db ++ [e])
  | _ => none

/-- `get_user_entities`: the user's rows, optionally filtered by a truthy
entity type, paginated by `offset(skip).limit(limit)` — the source's
callers always get the defaults `limit=100, skip=0`. -/
def getUserEntities (db : List UserEntity) (uid : Nat) (etype : Option String)
    (limit skip : Nat) : List UserEntity :=
  let q := db.filter (fun e => decide (e.user_id = uid))
  let q2 : List UserEntity := match etype with
    | some t => if t ≠ "" then q.filter (fun (e : UserEntity) => decide (e.entity_type = t)) else q
    | none => q
  (q2.drop skip).take limit

/-- `merge_user_entity_details`: look the entity up; shallow-merge the
payload over its stored details (non-dict stored details are treated as
`{}`); write back.  Returns the updated row (or `none` when the id is
unknown) and the new table. -/
def mergeUserEntityDetails (db : List UserEntity) (eid : Nat) (m : List (String × Json)) :
    Option UserEntity × List UserEntity :=
  match getUserEntityById db eid with
  | none => (none, db)
  | some e =>
    let current := match e.details_json with
      | .jobj kvs => kvs
      | _ => []
    let merged := dictUpdate current m
    (some { e with details_json := .jobj merged },
     db.map (fun x => if x.id = eid then { x with details_json := .jobj merged } else x))

/-! ### The fact-query resolver (`query_facts_node`, lines 346–376) -/

/-- The user-profile row consulted for profile-shaped query types. -/
structure UserProfile where
  username : String
  location : Option String
  hobbies_json : List String
  job_json : List String
  preferences_json : List String

/-- The validated query structure (`ParsedQuery` Pydantic model). -/
structure ParsedQuery where
  query_entity_type : Option String
  query_identifier : Option String
  query_attributes : Option (List String)

/-- The profile-shaped entity types of lines 350–355. -/
def profileTypes : List String :=
  ["personal_info", "user_location", "user_hobby", "user_job", "user_preference_general"]

/-- Profile branch of the resolver: location honours attribute filtering,
hobby/job are returned whole only when no attributes were requested, and
falsy stored values produce nothing. -/
def profileFacts (u : Option UserProfile) (t : String) (attrs : Option (List String)) :
    List Json :=
  match u with
  | none => []
  | some u =>
    let attrsFalsy : Bool := match attrs with
      | none => true
      | some l => l.isEmpty
    let locTruthy : Bool := match u.location with
      | some s => s != ""
      | none => false
    let locWanted : Bool := attrsFalsy || (match attrs with
      | some l => l.contains "location"
      | none => false)
    (if (t = "personal_info" ∨ t = "user_location") ∧ locWanted ∧ locTruthy then
      [Json.jobj [("type", .jstr "location"), ("detail", .jstr (u.location.getD ""))]]
    else []) ++
    (if t = "user_hobby" ∧ attrsFalsy ∧ ¬ u.hobbies_json.isEmpty then
      [Json.jobj [("type", .jstr "hobbies"), ("details", .jarr (u.hobbies_json.map .jstr))]]
    else []) ++
    (if t = "user_job" ∧ attrsFalsy ∧ ¬ u.job_json.isEmpty then
      [Json.jobj [("type", .jstr "jobs"), ("details", .jarr (u.job_json.map .jstr))]]
    else [])

/-- Identifier match of lines 363–367: lowered equality against the
stringified `name` / `description` / `title` details, plus lowered
substring containment in `date_text` when the queried type is `event`. -/
def entityIdentifierMatch (qtype : String) (details : List (String × Json)) (idf : String) :
    Bool :=
  let idl := pyLower idf
  let f (k : String) : String := pyLower (pyStr ((lookupJ details k).getD (.jstr "")))
  f "name" == idl || f "description" == idl || f "title" == idl ||
  (qtype == "event" && strIn idl (f "date_text"))

/-- One entity's contribution to the query result (lines 359–375): skip
non-dict details; filter by a truthy identifier; project to requested
attributes (dropping the entity when the projection is empty); and only
emit a fact whose `details` is truthy. -/
def entityQueryFact (qtype : String) (e : UserEntity) (idf : Option String)
    (attrs : Option (List String)) : Option Json :=
  match e.details_json with
  | .jobj details =>
    let idActive : Bool := match idf with
      | some s => s != ""
      | none => false
    let keep := if idActive then entityIdentifierMatch qtype details (idf.getD "") else true
    if keep then
      let attrsActive : Bool := match attrs with
        | some l => ¬ l.isEmpty
        | none => false
      if attrsActive then
        let specific := (attrs.getD []).filterMap
          (fun a => (lookupJ details a).map (fun v => (a, v)))
        if specific.isEmpty then none
        else some (.jobj [("entity_type", .jstr e.entity_type), ("details", .jobj specific)])
      else if details.isEmpty then none
      else some (.jobj [("entity_type", .jstr e.entity_type), ("details", .jobj details)])
    else none
  | _ => none

/-- The resolver applied to an already-validated `ParsedQuery` (the body
of `query_facts_node` after Pydantic validation): profile-shaped types
read the profile, any other truthy type queries the entity store. -/
def queryFactsResolve (u : Option UserProfile) (db : List UserEntity) (uid : Nat)
    (q : ParsedQuery) : List Json :=
  match q.query_entity_type with
  | none => []
  | some t =>
    if t ∈ profileTypes then profileFacts u t q.query_attributes
    else if t = "" then []
    else (getUserEntities db uid (some t) 100 0).filterMap
      (fun e => entityQueryFact t e q.query_identifier q.query_attributes)

/-- Whether the claim's identifier rule keeps an entity.  This definition
follows the claim's words (C7), not the source: equality of the lowered
stringified `name`/`description`/`title`, or — for type `event` —
substring containment in the lowered `date_text`. -/
def claimKeepEntity (t : String) (idf : Option String) (details : List (String × Json)) :
    Bool :=
  match idf with
  | none => true
  | some s =>
    if s = "" then true
    else
      (["name", "description", "title"].any fun k =>
        pyLower (pyStr ((lookupJ details k).getD (.jstr ""))) == pyLower s) ||
      (t == "event" && strIn (pyLower s) (pyLower (pyStr ((lookupJ details "date_text").getD (.jstr "")))))

/-- The non-profile query resolution as stated by the amended claim (C7):
take the user's entities of the queried type up to the page limit of
100, keep those passing the identifier rule, project details to the
requested attribute keys (dropping the entity when the projection is
empty), and otherwise return the whole, non-empty details map.  Written
from the claim's words, to be compared with `queryFactsResolve`. -/
def claimQueryResolve (db : List UserEntity) (uid : Nat) (t : String) (idf : Option String)
    (attrs : Option (List String)) : List Json :=
  let ents := (db.filter (fun e => decide (e.user_id = uid ∧ e.entity_type = t))).take 100
  ents.filterMap fun e =>
    match e.details_json with
    | .jobj details =>
      if claimKeepEntity t idf details then
        match attrs with
        | some l =>
          if l.isEmpty then
            if details.isEmpty then none
            else some (.jobj [("entity_type", .jstr e.entity_type), ("details", .jobj details)])
          else
            let proj := l.filterMap (fun a => (lookupJ details a).map (fun v => (a, v)))
            if proj.isEmpty then none
            else some (.jobj [("entity_type", .jstr e.entity_type), ("details", .jobj proj)])
        | none =>
          if details.isEmpty then none
          else some (.jobj [("entity_type", .jstr e.entity_type), ("details", .jobj details)])
      else none
    | _ => none

/-! ### Turn state and the decision node -/

/-- The fields of the LangGraph `AgentState` that the verified nodes read
or write (history and profile are threaded opaquely by the graph and are
not consulted by the properties below). -/
structure AgentState where
  input : String
  user_id : Nat
  decision_outcome : Option String
  tool_parameters : Option (List (String × Json))
  tool_result : Option String
  extracted_entities_json : Option (List Json)
  retrieved_facts_for_query : Option (List Json)
  response : Option String
  error_message : Option String

/-- Python `a or b` on error-message slots (the node error strings are
never empty, so `None`-ness is the only falsiness in play). -/
def orElseO (a b : Option String) : Option String :=
  match a with
  | some x => some x
  | none => b

/-- The fixed routing vocabulary (`allowed_decisions`, lines 133–135). -/
def allowedDecisions : List String :=
  ["extract_facts", "query_facts", "generate_response", "exit",
   "spotify_playback_action", "gmail_send_email",
   "gmail_search_emails", "gmail_read_email"]

/-- The routing collaborator as the decision node observes it:
unconfigured (`routing_llm` is `None`), raising, or answering with raw
text. -/
inductive RoutingLLM where
  | unavailable
  | raises
  | responds (raw : String)
deriving DecidableEq

/-- The text after the last (non-overlapping) occurrence of `pat`, i.e.
Python `s.split(pat)[-1]` (fuel-driven; callers pass the length). -/
def afterLastSubAux : Nat → List Char → List Char → List Char
  | 0, _, l => l
  | fuel + 1, pat, l =>
    match splitAtSub pat l with
    | none => l
    | some (_, rest) => afterLastSubAux fuel pat rest

/-- Python `s.split()[0].lower()`: the first whitespace-delimited word,
lowercased; `none` when there is no word (the `IndexError` case). -/
def firstWordLower (l : List Char) : Option String :=
  let w := (l.dropWhile reWsChar).takeWhile (fun c => ¬ reWsChar c)
  if w.isEmpty then none else some (String.mk (w.map lowerChar))

/-- Line 130: take the text after the last `</think>` (stripped) when the
sidecar delimiter occurs, then the first whitespace-delimited word,
lowercased.  `none` models the `IndexError` on an output with no word,
which the node's `except` turns into the fallback path. -/
def extractDecisionKeyword (rawStripped : String) : Option String :=
  let base : List Char :=
    if hasSub thinkClose rawStripped.data then
      pyStripL (afterLastSubAux rawStripped.data.length thinkClose rawStripped.data)
    else rawStripped.data
  firstWordLower base

/-- `agent_decision_node` (lines 113–140).  The early return of line 118
(unconfigured routing model) sets only the decision and the error; every
other path funnels through line 140, which clears the tool fields and
resets the retrieved-facts field unless the decision is `query_facts`. -/
def agentDecisionNode (llm : RoutingLLM) (st : AgentState) : AgentState :=
  match llm with
  | .unavailable =>
    { st with decision_outcome := some "generate_response",
              error_message := some "Routing LLM not configured." }
  | .raises =>
    { st with decision_outcome := some "generate_response",
              tool_parameters := none, tool_result := none,
              retrieved_facts_for_query := some [],
              error_message := some "Core error in agent_decision_node" }
  | .responds raw =>
    match extractDecisionKeyword (pyStripS raw) with
    | none =>
      { st with decision_outcome := some "generate_response",
                tool_parameters := none, tool_result := none,
                retrieved_facts_for_query := some [],
                error_message := some "Core error in agent_decision_node" }
    | some kw =>
      if kw ∈ allowedDecisions then
        { st with decision_outcome := some kw,
                  tool_parameters := none, tool_result := none,
                  retrieved_facts_for_query :=
                    (if kw = "query_facts" then st.retrieved_facts_for_query else some []),
                  error_message := st.error_message }
      else
        { st with decision_outcome := some "generate_response",
                  tool_parameters := none, tool_result := none,
                  retrieved_facts_for_query := some [],
                  error_message :=
                    some ("Routing LLM returned unexpected decision: " ++ kw) }

/-! ### The general fact-extraction node -/

/-- The write loop of `extract_general_facts_node` (lines 171–181): for
each identified entity carrying both an `entity_type` and a `details`
key, persist it; a `ValueError` from `create_user_entity` (non-dict
details) escapes the loop into the node's outer `except`, keeping the
rows already committed and the state entries already appended.  The
entity-type value is expected to be a string (a non-string routes to the
same exception path, approximating the un-modelled database coercion). -/
def factsDbLoop : List Json → List UserEntity → Nat →
    List UserEntity × List Json × Option String
  | [], db, _ => (db, [], none)
  | ed :: rest, db, uid =>
    match ed with
    | .jobj kvs =>
      match lookupJ kvs "entity_type", lookupJ kvs "details" with
      | some (.jstr t), some d =>
        match createUserEntity db uid t d with
        | some (e, db2) =>
          let r := factsDbLoop rest db2 uid
          (r.1,
           Json.jobj [("id", .jnum (e.id : Int)), ("entity_type", .jstr e.entity_type),
                      ("details_json", e.details_json)] :: r.2.1,
           r.2.2)
        | none => (db, [], some "Core error in extract_general_facts_node")
      | some _, some _ => (db, [], some "Core error in extract_general_facts_node")
      | _, _ => factsDbLoop rest db uid
    | _ => factsDbLoop rest db uid

/-- `extract_general_facts_node` (lines 142–183), with the fact LLM as an
oracle (`none` = unconfigured) and the entity table threaded
explicitly.  On any extraction failure the table is untouched and the
turn's extracted-entities field is the empty list. -/
def extractGeneralFactsNode (llmRaw : Option String) (db : List UserEntity)
    (st : AgentState) : AgentState × List UserEntity :=
  if st.decision_outcome ≠ some "extract_facts" then
    ({ st with extracted_entities_json := some [] }, db)
  else
    match llmRaw with
    | none =>
      ({ st with error_message := some "Fact LLM not configured.",
                 extracted_entities_json := some [] }, db)
    | some raw =>
      match factsParse raw with
      | .ok ents =>
        let r := factsDbLoop ents db st.user_id
        ({ st with extracted_entities_json := some r.2.1,
                   error_message := orElseO r.2.2 st.error_message }, r.1)
      | .noJson =>
        ({ st with extracted_entities_json := some [],
                   error_message := orElseO
                     (some "No JSON object pattern found in LLM output for general fact extraction.")
                     st.error_message }, db)
      | .parseErr =>
        ({ st with extracted_entities_json := some [],
                   error_message := orElseO (some "Parse error") st.error_message }, db)
      | .notAList =>
        ({ st with extracted_entities_json := some [],
                   error_message := orElseO
                     (some "LLM output for general entities was not a list.")
                     st.error_message }, db)
      | .notADict =>
        ({ st with extracted_entities_json := some [],
                   error_message := orElseO (some "Unexpected parse error") st.error_message }, db)

/-! ### The Gmail send node (slot filling) -/

/-- The validated send-message parameter set (`GmailSendParameters`):
`to` is required by the schema, subject and body are optional. -/
structure GmailSendParams where
  «to» : List String
  subject : Option String
  body : Option String

/-- Outcome of the underlying `send_email` capability call, as the node
classifies it: truthy non-error result vs. anything else (falsy result
or an error dict, summarized by its detail string). -/
inductive SendOutcome where
  | success
  | failed (detail : String)

/-- `gmail_send_action_node` (lines 481–520): service guard, then the
slot-filling ladder recipient → subject → body (Python falsiness, so a
missing *or empty* field counts as absent), dispatching only when all
three are present.  Returns the updated state and the list of dispatched
`(to, subject, body)` calls. -/
def gmailSendActionNode (svcUp : Bool) (outcome : SendOutcome)
    (params : Option GmailSendParams) (st : AgentState) :
    AgentState × List (List String × String × String) :=
  if ¬svcUp then
    ({ st with tool_result := some "Gmail service unavailable.",
               error_message := some "Gmail service not initialized." }, [])
  else
    match params with
    | none =>
      ({ st with tool_result :=
                   some "I\x27m sorry, I couldn\x27t quite understand the details for the email.",
                 error_message := orElseO st.error_message
                   (some "Could not understand email details.") }, [])
    | some p =>
      if p.«to» = [] ∨ p.«to».headD "" = "" then
        ({ st with tool_result :=
                     some "I\x27m ready to send an email, but I need to know who it\x27s for. Who should I send it to?",
                   error_message := some "Missing recipient." }, [])
      else if p.subject.getD "" = "" then
        ({ st with tool_result :=
                     some ("Okay, I can send an email to " ++ p.«to».headD "" ++
                           ". What should the subject line be?"),
                   error_message := some "Missing subject." }, [])
      else if p.body.getD "" = "" then
        ({ st with tool_result :=
                     some ("Okay, I\x27m sending an email to " ++ p.«to».headD "" ++
                           " with the subject \x27" ++ p.subject.getD "" ++
                           "\x27. What would you like the body of the email to say?"),
                   error_message := some "Missing email body." }, [])
      else
        match outcome with
        | .success =>
          ({ st with tool_result :=
                       some ("Email to " ++ String.intercalate ", " p.«to» ++
                             " has been sent successfully."),
                     error_message := none },
           [(p.«to», p.subject.getD "", p.body.getD "")])
        | .failed detail =>
          ({ st with tool_result :=
                       some ("Sorry, I couldn\x27t send the email. The service said: " ++ detail),
                     error_message :=
                       some ("Sorry, I couldn\x27t send the email. The service said: " ++ detail) },
           [(p.«to», p.subject.getD "", p.body.getD "")])

/-! ### The Gmail read node -/

/-- The *first* (shadowed, inert) definition of `GmailReadParameters`
(lines 65–67), kept to witness that the effective schema below has
dropped its `position` field. -/
structure GmailReadParametersFirst where
  message_id : Option String
  position : Option Int

/-- The *second*, effective definition of `GmailReadParameters`
(lines 69–70): only an optional `message_id`. -/
structure GmailReadParameters where
  message_id : Option String

/-- Pydantic validation of a decoded completion against the effective
`GmailReadParameters`: the input must be an object; `message_id`, when
present, must be a string or null; unknown keys (such as `position`) are
ignored. -/
def validateGmailRead (j : Json) : Option GmailReadParameters :=
  match j with
  | .jobj kvs =>
    match lookupJ kvs "message_id" with
    | none => some ⟨none⟩
    | some .null => some ⟨none⟩
    | some (.jstr s) => some ⟨some s⟩
    | some _ => none
  | _ => none

/-- `model_dump(exclude_none=True)` of the effective read parameters. -/
def dumpGmailRead (p : GmailReadParameters) : List (String × Json) :=
  match p.message_id with
  | some s => [("message_id", .jstr s)]
  | none => []

/-- `gmail_read_action_node` (lines 591–627): reads only `message_id`
from the turn's tool parameters; when a string id is present it invokes
the read capability (whose raw result is the `readRaw` oracle), and
otherwise — absent a carried error — replies asking which email to
read.  Returns the updated state and the list of read message ids. -/
def gmailReadActionNode (svcUp : Bool) (readRaw : Option Json) (st : AgentState) :
    AgentState × List String :=
  if ¬svcUp then
    ({ st with tool_result := some "Gmail service unavailable.",
               error_message := some "Gmail service not initialized." }, [])
  else
    let mid : Option String := match st.tool_parameters with
      | some kvs =>
        if kvs.isEmpty then none
        else match lookupJ kvs "message_id" with
          | some (.jstr s) => some s
          | _ => none
      | none => none
    match mid with
    | none =>
      match st.error_message with
      | some e =>
        ({ st with tool_result := some "Could not understand which email to read.",
                   error_message := some e }, [])
      | none =>
        ({ st with tool_result :=
                     some "I\x27m not sure which email you\x27d like me to read. Could you specify its ID or refer to it from a recent search?",
                   error_message :=
                     some "No message ID was determined to read the email." }, [])
    | some m =>
      let errDict : Bool := match readRaw with
        | some (.jobj kvs) => jsonTruthy ((lookupJ kvs "error").getD .null)
        | _ => false
      let truthy : Bool := match readRaw with
        | some j => jsonTruthy j
        | none => false
      if truthy ∧ ¬ errDict then
        match readRaw with
        | some (.jobj kvs) =>
          let subj := pyStr ((lookupJ kvs "subject").getD (.jstr "No Subject"))
          let fromS := pyStr ((lookupJ kvs "from").getD (.jstr "Unknown Sender"))
          let bodyFull : String := match lookupJ kvs "body" with
            | some (.jstr s) => s
            | some v => pyStr v
            | none => "No content available."
          let base := "Okay, here\x27s the email from " ++ fromS ++ " with subject \x27" ++
                      subj ++ "\x27:\n\n" ++ bodyFull.take 500
          let longMark : String := match lookupJ kvs "body" with
            | some (.jstr s) => if 500 < s.length then "\n\n(This is a snippet of a longer email.)" else ""
            | _ => ""
          ({ st with tool_result := some (base ++ longMark),
                     error_message := st.error_message }, [m])
        | _ =>
          ({ st with tool_result :=
                       some ("Received email content, but in an unexpected format: " ++
                             (match readRaw with
                              | some j => (pyStr j).take 300
                              | none => "None")),
                     error_message := some "Unexpected format for read email content." }, [m])
      else
        let detail : String := match readRaw with
          | some (.jobj kvs) => pyStr ((lookupJ kvs "error").getD .null)
          | some j => pyStr j
          | none => "None"
        ({ st with tool_result :=
                     some ("Sorry, I couldn\x27t read that email (ID: " ++ m ++
                           "). Gmail service said: " ++ detail),
                   error_message :=
                     some ("Sorry, I couldn\x27t read that email (ID: " ++ m ++
                           "). Gmail service said: " ++ detail) }, [m])

/-! ### The Spotify dispatcher -/

/-- The validated playback parameters (`SpotifyActionParameters`). -/
structure SpotifyActionParams where
  action : String
  song_title : Option String
  artist_name : Option String

/-- One capability invocation made by `spotify_action_node`, for the
observable call log. -/
inductive SpotifyCall where
  | search (query qtype : String) (limit : Nat)
  | play (uri : String)
  | pause
  | skip (numSkips : Nat)
  | nowPlaying

/-- `SpotifyService.search_spotify` (lines 132–138): a dict result
carrying an `error` key is swallowed into `None`; everything else passes
through. -/
def searchSpotifyRes (raw : Option Json) : Option Json :=
  match raw with
  | some (.jobj kvs) => if (lookupJ kvs "error").isSome then none else some (.jobj kvs)
  | r => r

/-- `SpotifyService.get_now_playing`: error dicts become `None`; a string
result is `json.loads`-parsed (whole-string); a non-dict, non-string
result becomes `None`. -/
def getNowPlayingRes (raw : Option Json) : Option Json :=
  match raw with
  | some (.jobj kvs) => if (lookupJ kvs "error").isSome then none else some (.jobj kvs)
  | some (.jstr s) =>
    match rawDecode (dropWs s.data) with
    | some (j, rest) => if (dropWs rest).isEmpty then some j else none
    | none => none
  | _ => none

/-- The first-artist display of lines 421–422: `artists[0]` when it is a
string, else `"Unknown Artist"` (default list `["Unknown Artist"]` when
the key is absent). -/
def firstArtistDisplay (t : List (String × Json)) : String :=
  match (lookupJ t "artists").getD (.jarr [.jstr "Unknown Artist"]) with
  | .jarr (.jstr s :: _) => s
  | _ => "Unknown Artist"

/-- The track extraction of lines 412–422: from a search result shaped
`{"tracks": [dict, …]}` whose first track has a truthy `id`, build the
playback URI, the displayed name, and the displayed artist. -/
def spotifyTrackUri (sres : Option Json) : Option (String × String × String) :=
  match sres with
  | some (.jobj kvs) =>
    match lookupJ kvs "tracks" with
    | some (.jarr (.jobj t :: _)) =>
      match lookupJ t "id" with
      | some idv =>
        if jsonTruthy idv then
          some ("spotify:track:" ++ pyStr idv,
                pyStr ((lookupJ t "name").getD .null),
                firstArtistDisplay t)
        else none
      | none => none
    | _ => none
  | _ => none

/-- Detail string for a failed playback-control call (the
`play_status.get("error") if isinstance(play_status, dict) else
play_status` idiom rendered through the f-string). -/
def spotifyFailDetail (raw : Option Json) : String :=
  match raw with
  | some (.jobj kvs) => pyStr ((lookupJ kvs "error").getD .null)
  | some j => pyStr j
  | none => "None"

/-- Whether a playback-control result counts as success: a string
containing the given marker (lowercased), or `None`. -/
def spotifyCtrlOk (marker : String) (raw : Option Json) : Bool :=
  (match raw with
   | some (.jstr s) => strIn marker (pyLower s)
   | _ => false) || raw.isNone

/-- `spotify_action_node` (lines 382–479) with the service-call results
as oracles (`searchRaw` the raw `SpotifySearch` result before
`search_spotify`'s error-swallowing, the others the raw `SpotifyPlayback`
results).  Returns the updated state and the ordered call log. -/
def spotifyActionNode (svcUp : Bool)
    (searchRaw playRaw pauseRaw skipRaw nowRaw : Option Json)
    (params : Option SpotifyActionParams) (st : AgentState) :
    AgentState × List SpotifyCall :=
  if ¬svcUp then
    ({ st with tool_result := some "Spotify service is not available.",
               error_message := some "Spotify service not initialized." }, [])
  else
    match params with
    | none =>
      ({ st with tool_result := some "I couldn\x27t understand what you wanted to do with Spotify.",
                 error_message := orElseO st.error_message
                   (some "Spotify action parameters (especially \x27action\x27) not extracted.") }, [])
    | some p =>
      if p.action = "" then
        ({ st with tool_result := some "I couldn\x27t understand what you wanted to do with Spotify.",
                   error_message := orElseO st.error_message
                     (some "Spotify action parameters (especially \x27action\x27) not extracted.") }, [])
      else if p.action = "start" then
        if p.song_title.getD "" = "" then
          ({ st with tool_result := some "I need a song title, artist, or mood/genre to start playing.",
                     error_message :=
                       some "Missing song title for \x27start\x27 action after parameter extraction." }, [])
        else
          let title := p.song_title.getD ""
          let q := match p.artist_name with
            | some a => if a ≠ "" then title ++ " artist:" ++ a else title
            | none => title
          let sres := searchSpotifyRes searchRaw
          let hasTracks : Bool := match sres with
            | some (.jobj kvs) => (lookupJ kvs "tracks").isSome
            | _ => false
          let errTruthy : Bool := match sres with
            | some (.jobj kvs) => jsonTruthy ((lookupJ kvs "error").getD .null)
            | _ => false
          let searchErrMsg := "Error searching Spotify: " ++
            (match sres with
             | some (.jobj kvs) => pyStr ((lookupJ kvs "error").getD .null)
             | _ => "None")
          let res1 : String :=
            if hasTracks then "Could not understand the Spotify request."
            else if errTruthy then searchErrMsg
            else "Could not understand the Spotify request."
          let err1 : Option String :=
            if hasTracks then st.error_message
            else if errTruthy then some searchErrMsg
            else st.error_message
          match spotifyTrackUri sres with
          | some (uri, nameD, artistD) =>
            if spotifyCtrlOk "playback starting" playRaw then
              ({ st with tool_result :=
                           some ("Now playing \x27" ++ nameD ++ "\x27 by " ++ artistD ++
                                 "\x27 on Spotify."),
                         error_message := none },
               [.search q "track" 1, .play uri])
            else
              ({ st with tool_result :=
                           some ("I found \x27" ++ nameD ++
                                 "\x27, but couldn\x27t play it. Spotify said: " ++
                                 spotifyFailDetail playRaw),
                         error_message :=
                           some ("I found \x27" ++ nameD ++
                                 "\x27, but couldn\x27t play it. Spotify said: " ++
                                 spotifyFailDetail playRaw) },
               [.search q "track" 1, .play uri])
          | none =>
            match err1 with
            | some e =>
              ({ st with tool_result := some res1, error_message := some e },
               [.search q "track" 1])
            | none =>
              ({ st with tool_result :=
                           some ("Sorry, I couldn\x27t find \x27" ++ q ++
                                 "\x27 on Spotify to play."),
                         error_message := some "Song not found for playback." },
               [.search q "track" 1])
      else if p.action = "pause" then
        if spotifyCtrlOk "playback paused" pauseRaw then
          ({ st with tool_result := some "Playback paused on Spotify.",
                     error_message := none }, [.pause])
        else
          ({ st with tool_result :=
                       some ("Could not pause playback. Spotify said: " ++
                             spotifyFailDetail pauseRaw),
                     error_message :=
                       some ("Could not pause playback. Spotify said: " ++
                             spotifyFailDetail pauseRaw) }, [.pause])
      else if p.action = "skip" then
        if spotifyCtrlOk "skipped" skipRaw || spotifyCtrlOk "next track" skipRaw then
          ({ st with tool_result := some "Skipped to the next track on Spotify.",
                     error_message := none }, [.skip 1])
        else
          ({ st with tool_result :=
                       some ("Could not skip track. Spotify said: " ++
                             spotifyFailDetail skipRaw),
                     error_message :=
                       some ("Could not skip track. Spotify said: " ++
                             spotifyFailDetail skipRaw) }, [.skip 1])
      else if p.action = "get" then
        let np := getNowPlayingRes nowRaw
        let npDisplay : String := match np with
          | some j => pyStr j
          | none => "None"
        match np with
        | some (.jobj kvs) =>
          if jsonTruthy ((lookupJ kvs "name").getD .null) then
            ({ st with tool_result :=
                         some ("Currently playing \x27" ++
                               pyStr ((lookupJ kvs "name").getD .null) ++ "\x27 by " ++
                               firstArtistDisplay kvs ++ "."),
                       error_message := none }, [.nowPlaying])
          else
            ({ st with tool_result := some "Could not get current playing information from Spotify.",
                       error_message := some ("Error getting current track: " ++ npDisplay) },
             [.nowPlaying])
        | some (.jstr s) =>
          if s ≠ "" ∧ strIn "no track playing" (pyLower s) then
            ({ st with tool_result := some "Nothing is currently playing on Spotify.",
                       error_message := none }, [.nowPlaying])
          else
            ({ st with tool_result := some "Could not get current playing information from Spotify.",
                       error_message := some ("Error getting current track: " ++ npDisplay) },
             [.nowPlaying])
        | _ =>
          ({ st with tool_result := some "Could not get current playing information from Spotify.",
                     error_message := some ("Error getting current track: " ++ npDisplay) },
           [.nowPlaying])
      else
        ({ st with tool_result :=
                     some ("I\x27m not sure how to perform the Spotify action: \x27" ++
                           p.action ++ "\x27."),
                   error_message := some ("Unknown Spotify action: " ++ p.action) }, [])

/-! ### The response composer -/

/-- The conversational collaborator as `generate_response_node` observes
it: unconfigured, raising during context build / invocation, or
answering with raw text. -/
inductive GenOutcome where
  | unavailable
  | raises
  | ok (text : String)

/-- `generate_response_node` (lines 630–704).  On a successful
generation, `final_error_to_propagate` starts from
`current_node_error = None` and the inner branch can only set it to
`None` again, so the carried error is always cleared; an error survives
the composer exactly when the composer's own step failed (unconfigured
LLM or an exception), in which case a fixed fallback reply is
produced. -/
def generateResponseNode (g : GenOutcome) (st : AgentState) : AgentState :=
  match g with
  | .unavailable =>
    { st with response := some "LLM not available.",
              error_message := some "Conversational LLM not configured." }
  | .raises =>
    { st with response :=
                some "I had a little trouble formulating that response. Could you try asking in a different way?",
              error_message := some "Error in generate_response" }
  | .ok t =>
    let r := pyStripS t
    let r2 := if hasSub thinkOpen r.data then pyStripS (stripThinkS r) else r
    { st with response := some r2, error_message := none }

/-! ### Lemmas about the dict-merge kernel -/

/-- Looking a key up in a concatenation tries the left part first. -/
theorem lookupJ_append (a b : List (String × Json)) (k : String) :
    lookupJ (a ++ b) k = (lookupJ a k).orElse (fun _ => lookupJ b k) := by
  induction a with
  | nil => simp [lookupJ, Option.orElse]
  | cons kv rest ih =>
    cases kv with
    | mk k2 v =>
      simp only [List.cons_append, lookupJ]
      by_cases h : k2 = k
      · simp [h, Option.orElse]
      · simp [h, ih]

/-- Lookup in the value-refreshed copy of `d`: present iff present in
`d`, with `m`'s value preferred. -/
theorem lookupJ_map_refresh (d m : List (String × Json)) (k : String) :
    lookupJ (d.map fun kv => match lookupJ m kv.1 with
      | some v => (kv.1, v)
      | none => kv) k
    = (lookupJ d k).map (fun v => ((lookupJ m k).getD v)) := by
  induction d with
  | nil => simp [lookupJ]
  | cons kv rest ih =>
    cases kv with
    | mk k2 v =>
      by_cases h : k2 = k
      · subst h
        cases hm : lookupJ m k2 <;> simp [lookupJ, hm]
      · cases hm : lookupJ m k2 <;> simp [lookupJ, hm, h, ih]

/-- Keys absent from `d` see through the new-keys filter unchanged. -/
theorem lookupJ_filter_new (d m : List (String × Json)) (k : String)
    (h : lookupJ d k = none) :
    lookupJ (m.filter fun kv => (lookupJ d kv.1).isNone) k = lookupJ m k := by
  induction m with
  | nil => simp
  | cons kv rest ih =>
    cases kv with
    | mk k2 v =>
      by_cases hk : k2 = k
      · subst hk
        simp [List.filter_cons, h, lookupJ]
      · cases hd : lookupJ d k2 <;> simp [List.filter_cons, hd, lookupJ, hk, ih]

/-- The pointwise merge law of `dictUpdate`: the merged map answers with
`m`'s value when `m` has the key, else `d`'s value, else nothing. -/
theorem lookupJ_dictUpdate (d m : List (String × Json)) (k : String) :
    lookupJ (dictUpdate d m) k = (lookupJ m k).orElse (fun _ => lookupJ d k) := by
  unfold dictUpdate
  rw [lookupJ_append, lookupJ_map_refresh]
  cases hd : lookupJ d k with
  | some v =>
    cases hm : lookupJ m k <;> simp [hm, Option.orElse]
  | none =>
    rw [lookupJ_filter_new d m k hd]
    cases hm : lookupJ m k <;> simp [hm, Option.orElse]

/-! ### Concrete fixtures for witnesses and counterexamples -/

/-- A blank turn state. -/
def stBase : AgentState := ⟨"", 0, none, none, none, none, none, none, none⟩

/-- A retrieved fact left over from an earlier turn. -/
def staleFact : Json := .jobj [("type", .jstr "location"), ("detail", .jstr "Austin")]

/-- The stored pet of end-to-end scenario 2. -/
def miloDb : List UserEntity :=
  [⟨1, 1, "pet", .jobj [("name", .jstr "Milo"), ("species", .jstr "cat"),
                        ("breed", .jstr "Tabby")]⟩]

/-- 101 matching pet entities — one more than the repository's page
limit. -/
def bigPetDb : List UserEntity :=
  (List.range 101).map (fun i => ⟨i, 1, "pet", .jobj [("name", .jstr "Rex")]⟩)

/-! ### Claim C1 — routing-decision fallback -/

/-- C1: the decision token is the case-folded first whitespace-delimited
word of the completion after the reasoning sidecar is stripped
(`extractDecisionKeyword`); when that word is outside the fixed
vocabulary — and likewise when the completion has no word, when the
routing model raises, and when it is unavailable — the decision is
`generate_response` and a non-fatal error is recorded on the turn state;
an in-vocabulary word becomes the decision with no error recorded. -/
theorem claim_C1_routing_decision (st : AgentState) (raw kw : String)
    (hclean : st.error_message = none) :
    (extractDecisionKeyword (pyStripS raw) = some kw → kw ∉ allowedDecisions →
       (agentDecisionNode (.responds raw) st).decision_outcome = some "generate_response" ∧
       (agentDecisionNode (.responds raw) st).error_message ≠ none)
    ∧ (extractDecisionKeyword (pyStripS raw) = some kw → kw ∈ allowedDecisions →
       (agentDecisionNode (.responds raw) st).decision_outcome = some kw ∧
       (agentDecisionNode (.responds raw) st).error_message = none)
    ∧ (extractDecisionKeyword (pyStripS raw) = none →
       (agentDecisionNode (.responds raw) st).decision_outcome = some "generate_response" ∧
       (agentDecisionNode (.responds raw) st).error_message ≠ none)
    ∧ ((agentDecisionNode .unavailable st).decision_outcome = some "generate_response" ∧
       (agentDecisionNode .unavailable st).error_message ≠ none)
    ∧ ((agentDecisionNode .raises st).decision_outcome = some "generate_response" ∧
       (agentDecisionNode .raises st).error_message ≠ none) := by
  refine ⟨?_, ?_, ?_, ?_, ?_⟩
  · intro h hnot
    simp [agentDecisionNode, h, hnot]
  · intro h hin
    simp [agentDecisionNode, h, hin, hclean]
  · intro h
    simp [agentDecisionNode, h]
  · simp [agentDecisionNode]
  · simp [agentDecisionNode]

/-- Witness for C1 at a concrete completion with verbose trailing text. -/
theorem claim_C1_routing_decision_witness :
    (agentDecisionNode (.responds "EXTRACT_FACTS because the user shared a fact") stBase).decision_outcome
      = some "extract_facts"
    ∧ (agentDecisionNode (.responds "EXTRACT_FACTS because the user shared a fact") stBase).error_message
      = none :=
  (claim_C1_routing_decision stBase "EXTRACT_FACTS because the user shared a fact"
      "extract_facts" rfl).2.1 (by rfl) (by decide)

/-! ### Claim C3 — entity merge law -/

/-- C3: merging payload `M` into an entity whose stored details map is
`D` writes exactly the shallow union of `D` updated by `M` — pointwise,
the merged map answers with `M`'s value when `M` has the key, else with
`D`'s — and on the claim's concrete examples `{a:1}` updated by `{b:2}`
is `{a:1,b:2}` while `{a:1}` updated by `{a:2}` is `{a:2}`. -/
theorem claim_C3_merge_law (db : List UserEntity) (eid : Nat) (e : UserEntity)
    (D M : List (String × Json))
    (hfind : getUserEntityById db eid = some e)
    (hdet : e.details_json = .jobj D) :
    (mergeUserEntityDetails db eid M).1
      = some { e with details_json := .jobj (dictUpdate D M) }
    ∧ (∀ k, lookupJ (dictUpdate D M) k = (lookupJ M k).orElse (fun _ => lookupJ D k))
    ∧ dictUpdate [("a", .jnum 1)] [("b", .jnum 2)] = [("a", .jnum 1), ("b", .jnum 2)]
    ∧ dictUpdate [("a", .jnum 1)] [("a", .jnum 2)] = [("a", .jnum 2)] := by
  refine ⟨?_, fun k => lookupJ_dictUpdate D M k, rfl, rfl⟩
  unfold mergeUserEntityDetails
  rw [hfind]
  simp [hdet]

/-- Witness for C3 on a one-row table. -/
theorem claim_C3_merge_law_witness :
    (mergeUserEntityDetails [⟨1, 1, "pet", Json.jobj [("a", Json.jnum 1)]⟩] 1
        [("b", Json.jnum 2)]).1
      = some ⟨1, 1, "pet", Json.jobj (dictUpdate [("a", Json.jnum 1)] [("b", Json.jnum 2)])⟩ :=
  (claim_C3_merge_law [⟨1, 1, "pet", Json.jobj [("a", Json.jnum 1)]⟩] 1
      ⟨1, 1, "pet", Json.jobj [("a", Json.jnum 1)]⟩
      [("a", Json.jnum 1)] [("b", Json.jnum 2)] rfl rfl).1

/-! ### Claim C6 — composer error clearing -/

/-- C6: whenever the composer's generation step succeeds the error slot
of the final turn state is cleared, whatever error the turn carried in;
an error survives the composer exactly when its own step failed — an
exception, or an unconfigured conversational model — and in those cases
a fixed fallback reply is produced. -/
theorem claim_C6_composer_error_clearing :
    (∀ st t, (generateResponseNode (.ok t) st).error_message = none)
    ∧ (∀ st, (generateResponseNode .raises st).error_message ≠ none
        ∧ (generateResponseNode .raises st).response =
            some "I had a little trouble formulating that response. Could you try asking in a different way?")
    ∧ (∀ st, (generateResponseNode .unavailable st).error_message ≠ none
        ∧ (generateResponseNode .unavailable st).response = some "LLM not available.") := by
  refine ⟨fun st t => rfl, fun st => ⟨?_, rfl⟩, fun st => ⟨?_, rfl⟩⟩
  · simp [generateResponseNode]
  · simp [generateResponseNode]

/-! ### Claims C8 and C9 — decision-node frame effects -/

/-- C8 (amended): whenever the routing collaborator is configured — it
answers or raises — the decision node leaves the retrieved-facts field
untouched when the decision is `query_facts` and resets it to the empty
list otherwise.  (The unconfigured early return of line 118, excluded by
the hypothesis, skips the reset; see the counterexample.) -/
theorem claim_C8_amended_retrieved_facts_reset (llm : RoutingLLM) (st : AgentState)
    (h : llm ≠ .unavailable) :
    (agentDecisionNode llm st).retrieved_facts_for_query =
      (if (agentDecisionNode llm st).decision_outcome = some "query_facts"
       then st.retrieved_facts_for_query else some []) := by
  cases llm with
  | unavailable => exact absurd rfl h
  | raises => simp [agentDecisionNode]
  | responds raw =>
    cases hk : extractDecisionKeyword (pyStripS raw) with
    | none => simp [agentDecisionNode, hk]
    | some kw =>
      by_cases hin : kw ∈ allowedDecisions
      · by_cases hq : kw = "query_facts"
        · subst hq
          simp [agentDecisionNode, hk, hin]
        · simp [agentDecisionNode, hk, hin, hq]
      · simp [agentDecisionNode, hk, hin]

/-- Witness for the amended C8 at a configured routing model. -/
theorem claim_C8_amended_retrieved_facts_reset_witness :
    (agentDecisionNode (.responds "hello there")
        { stBase with retrieved_facts_for_query := some [staleFact] }).retrieved_facts_for_query =
      (if (agentDecisionNode (.responds "hello there")
            { stBase with retrieved_facts_for_query := some [staleFact] }).decision_outcome
          = some "query_facts"
       then ({ stBase with
               retrieved_facts_for_query := some [staleFact] } : AgentState).retrieved_facts_for_query
       else some []) :=
  claim_C8_amended_retrieved_facts_reset (.responds "hello there")
    { stBase with retrieved_facts_for_query := some [staleFact] } (by decide)

/-- Counterexample to C8 as stated: with the routing model unconfigured
the decision is `generate_response`, yet the stale retrieved-facts list
survives instead of being reset to the empty list. -/
theorem claim_C8_counterexample :
    (agentDecisionNode .unavailable
        { stBase with retrieved_facts_for_query := some [staleFact] }).decision_outcome
      = some "generate_response"
    ∧ (agentDecisionNode .unavailable
        { stBase with retrieved_facts_for_query := some [staleFact] }).retrieved_facts_for_query
      = some [staleFact]
    ∧ some [staleFact] ≠ (some ([] : List Json)) := by
  refine ⟨rfl, rfl, ?_⟩
  intro h
  simp at h

/-- C9 (amended): whenever the routing collaborator is configured — it
answers or raises — the decision node unconditionally clears the
tool-parameters and tool-result fields before any downstream node runs.
(The unconfigured early return of line 118, excluded by the hypothesis,
skips the clearing; see the counterexample.) -/
theorem claim_C9_amended_tool_fields_cleared (llm : RoutingLLM) (st : AgentState)
    (h : llm ≠ .unavailable) :
    (agentDecisionNode llm st).tool_parameters = none
    ∧ (agentDecisionNode llm st).tool_result = none := by
  cases llm with
  | unavailable => exact absurd rfl h
  | raises => simp [agentDecisionNode]
  | responds raw =>
    cases hk : extractDecisionKeyword (pyStripS raw) with
    | none => simp [agentDecisionNode, hk]
    | some kw =>
      by_cases hin : kw ∈ allowedDecisions <;> simp [agentDecisionNode, hk, hin]

/-- Witness for the amended C9 at a configured routing model. -/
theorem claim_C9_amended_tool_fields_cleared_witness :
    (agentDecisionNode (.responds "QUERY_FACTS")
        { stBase with tool_result := some "old result" }).tool_parameters = none
    ∧ (agentDecisionNode (.responds "QUERY_FACTS")
        { stBase with tool_result := some "old result" }).tool_result = none :=
  claim_C9_amended_tool_fields_cleared (.responds "QUERY_FACTS")
    { stBase with tool_result := some "old result" } (by decide)

/-- Counterexample to C9 as stated: with the routing model unconfigured
the early return keeps the previous turn's tool result and tool
parameters in the state. -/
theorem claim_C9_counterexample :
    (agentDecisionNode .unavailable
        { stBase with tool_result := some "old result",
                      tool_parameters := some [("x", .jnum 1)] }).tool_result
      = some "old result"
    ∧ (agentDecisionNode .unavailable
        { stBase with tool_result := some "old result",
                      tool_parameters := some [("x", .jnum 1)] }).tool_parameters
      = some [("x", .jnum 1)]
    ∧ some "old result" ≠ (none : Option String) := by
  refine ⟨rfl, rfl, ?_⟩
  simp

/-! ### Claim C10 — effective Gmail read parameters -/

/-- C10: validation against the effective (second, shadowing) definition
of `GmailReadParameters` yields a parameter set holding at most a
`message_id` — in particular its dump never carries a `position` key —
and when the model has not resolved a message id the read node makes no
read call and replies asking which email to read. -/
theorem claim_C10_read_params_shadowing :
    (∀ j p, validateGmailRead j = some p →
       dumpGmailRead p = [] ∨ ∃ s, dumpGmailRead p = [("message_id", .jstr s)])
    ∧ (∀ j p, validateGmailRead j = some p →
       lookupJ (dumpGmailRead p) "position" = none)
    ∧ (∀ (st : AgentState) (readRaw : Option Json) (p : GmailReadParameters),
        p.message_id = none →
        (gmailReadActionNode true readRaw
            { st with tool_parameters := some (dumpGmailRead p),
                      error_message := none }).1.tool_result
          = some "I\x27m not sure which email you\x27d like me to read. Could you specify its ID or refer to it from a recent search?"
        ∧ (gmailReadActionNode true readRaw
            { st with tool_parameters := some (dumpGmailRead p),
                      error_message := none }).2 = []) := by
  refine ⟨?_, ?_, ?_⟩
  · intro j p _
    cases p with
    | mk mid =>
      cases mid with
      | none => exact Or.inl rfl
      | some s => exact Or.inr ⟨s, rfl⟩
  · intro j p _
    cases p with
    | mk mid =>
      cases mid with
      | none => rfl
      | some s => simp [dumpGmailRead, lookupJ]
  · intro st readRaw p hmid
    cases p with
    | mk mid =>
      cases hmid
      exact ⟨rfl, rfl⟩

/-- Witness for C10: a completion carrying only a positional reference
validates to an id-less parameter set whose dump has no `position`
field, and drives the read node to the clarification reply with no read
call. -/
theorem claim_C10_read_params_shadowing_witness :
    lookupJ (dumpGmailRead ⟨none⟩) "position" = none
    ∧ (gmailReadActionNode true (some .null)
        { stBase with tool_parameters := some (dumpGmailRead ⟨none⟩),
                      error_message := none }).2 = [] :=
  ⟨claim_C10_read_params_shadowing.2.1 (.jobj [("position", .jnum 2)]) ⟨none⟩ rfl,
   (claim_C10_read_params_shadowing.2.2 stBase (some .null) ⟨none⟩ rfl).2⟩

/-! ### Claim C4 — send-message slot filling -/

/-- C4: the send node checks the required fields in the fixed order
recipient → subject → body (a field is present when it carries a
non-empty value, per Python falsiness); the first missing field yields
its prompt and its descriptive missing-field marker with no dispatch; in
particular a recipient-only set gets the subject-asking prompt; and the
send capability is invoked exactly when all three fields are present. -/
theorem claim_C4_send_slot_filling (outcome : SendOutcome) (p : GmailSendParams)
    (st : AgentState) :
    ((gmailSendActionNode true outcome (some p) st).2 ≠ [] ↔
      (p.«to» ≠ [] ∧ p.«to».headD "" ≠ "" ∧ p.subject.getD "" ≠ "" ∧ p.body.getD "" ≠ ""))
    ∧ ((p.«to» = [] ∨ p.«to».headD "" = "") →
       (gmailSendActionNode true outcome (some p) st).1.error_message = some "Missing recipient."
       ∧ (gmailSendActionNode true outcome (some p) st).2 = [])
    ∧ (p.«to» ≠ [] → p.«to».headD "" ≠ "" → p.subject.getD "" = "" →
       (gmailSendActionNode true outcome (some p) st).1.tool_result
         = some ("Okay, I can send an email to " ++ p.«to».headD "" ++
                 ". What should the subject line be?")
       ∧ (gmailSendActionNode true outcome (some p) st).1.error_message = some "Missing subject."
       ∧ (gmailSendActionNode true outcome (some p) st).2 = [])
    ∧ (p.«to» ≠ [] → p.«to».headD "" ≠ "" → p.subject.getD "" ≠ "" → p.body.getD "" = "" →
       (gmailSendActionNode true outcome (some p) st).1.error_message
         = some "Missing email body."
       ∧ (gmailSendActionNode true outcome (some p) st).2 = []) := by
  obtain ⟨tos, subj, body⟩ := p
  refine ⟨?_, ?_, ?_, ?_⟩
  · cases tos with
    | nil => simp [gmailSendActionNode]
    | cons hd tl =>
      by_cases hhd : hd = ""
      · subst hhd
        simp [gmailSendActionNode]
      · by_cases hs : subj.getD "" = ""
        · simp [gmailSendActionNode, hhd, hs]
        · by_cases hb : body.getD "" = ""
          · simp [gmailSendActionNode, hhd, hs, hb]
          · cases outcome <;> simp [gmailSendActionNode, hhd, hs, hb]
  · intro hr
    cases tos with
    | nil => simp [gmailSendActionNode]
    | cons hd tl =>
      simp only [List.headD_cons] at hr
      rcases hr with hr | hr
      · cases hr
      · subst hr
        simp [gmailSendActionNode]
  · intro hr1 hr2 hs
    cases tos with
    | nil => exact absurd rfl hr1
    | cons hd tl =>
      simp only [List.headD_cons] at hr2 hs ⊢
      simp [gmailSendActionNode, hr2, hs]
  · intro hr1 hr2 hs hb
    cases tos with
    | nil => exact absurd rfl hr1
    | cons hd tl =>
      simp only [List.headD_cons] at hr2 hs hb ⊢
      simp [gmailSendActionNode, hr2, hs, hb]

/-- Witness for C4: a recipient-only parameter set draws the
subject-asking prompt and no dispatch. -/
theorem claim_C4_send_slot_filling_witness :
    (gmailSendActionNode true .success (some ⟨["sam@example.com"], none, none⟩) stBase).1.tool_result
      = some "Okay, I can send an email to sam@example.com. What should the subject line be?"
    ∧ (gmailSendActionNode true .success (some ⟨["sam@example.com"], none, none⟩) stBase).2 = [] := by
  have h := (claim_C4_send_slot_filling .success ⟨["sam@example.com"], none, none⟩ stBase).2.2.1
    (by simp) (by simp) rfl
  exact ⟨h.1, h.2.2⟩

/-! ### Claim C5 — playback start with no search hit -/

/-- The result of `search_spotify` never carries an `error` key: the
wrapper swallows error dicts into `None`. -/
theorem searchSpotifyRes_no_error (raw : Option Json) (kvs : List (String × Json))
    (h : searchSpotifyRes raw = some (.jobj kvs)) : lookupJ kvs "error" = none := by
  cases raw with
  | none => cases h
  | some j =>
    cases j with
    | jobj kvs0 =>
      by_cases hk : (lookupJ kvs0 "error").isSome
      · simp [searchSpotifyRes, hk] at h
      · simp [searchSpotifyRes, hk] at h
        subst h
        exact Option.not_isSome_iff_eq_none.mp hk
    | null => cases h
    | jbool b => cases h
    | jnum n => cases h
    | jstr s => cases h
    | jarr l => cases h

/-- C5 (amended): a playback `start` first searches, bounded to a single
best match; when no playable track comes back the playback call is not
made and the tool result reports the inability to find the track without
claiming success — but the node records a non-fatal
`"Song not found for playback."` error message on the turn state (rather
than carrying no error, as the claim stated). -/
theorem claim_C5_amended_playback_not_found (searchRaw : Option Json)
    (p : SpotifyActionParams) (st : AgentState) (title q : String)
    (hclean : st.error_message = none)
    (hact : p.action = "start")
    (htitle : p.song_title = some title)
    (hne : title ≠ "")
    (hq : q = (match p.artist_name with
               | some a => if a ≠ "" then title ++ " artist:" ++ a else title
               | none => title))
    (hmiss : spotifyTrackUri (searchSpotifyRes searchRaw) = none) :
    (spotifyActionNode true searchRaw none none none none (some p) st).2
      = [.search q "track" 1]
    ∧ (spotifyActionNode true searchRaw none none none none (some p) st).1.tool_result
      = some ("Sorry, I couldn\x27t find \x27" ++ q ++ "\x27 on Spotify to play.")
    ∧ (spotifyActionNode true searchRaw none none none none (some p) st).1.error_message
      = some "Song not found for playback." := by
  have herr : (match searchSpotifyRes searchRaw with
      | some (.jobj kvs) => jsonTruthy ((lookupJ kvs "error").getD .null)
      | _ => false) = false := by
    cases hs : searchSpotifyRes searchRaw with
    | none => rfl
    | some j =>
      cases j with
      | jobj kvs => simp [searchSpotifyRes_no_error searchRaw kvs hs, jsonTruthy]
      | null => rfl
      | jbool b => rfl
      | jnum n => rfl
      | jstr s => rfl
      | jarr l => rfl
  have hact2 : p.action ≠ "" := by
    rw [hact]
    decide
  subst hq
  simp only [spotifyActionNode, hact, hact2, htitle, hmiss, herr, hclean, Option.getD_some,
    hne, if_neg, if_pos, not_true, not_false_iff, Bool.false_eq_true, ite_false, ite_true]
  simp [hact2, hne, herr, hclean]

/-- Witness for the amended C5 at an empty search result. -/
theorem claim_C5_amended_playback_not_found_witness :
    (spotifyActionNode true (some (.jobj [("tracks", .jarr [])])) none none none none
        (some ⟨"start", some "Yesterday", none⟩) stBase).2
      = [.search "Yesterday" "track" 1]
    ∧ (spotifyActionNode true (some (.jobj [("tracks", .jarr [])])) none none none none
        (some ⟨"start", some "Yesterday", none⟩) stBase).1.tool_result
      = some ("Sorry, I couldn\x27t find \x27Yesterday\x27 on Spotify to play.")
    ∧ (spotifyActionNode true (some (.jobj [("tracks", .jarr [])])) none none none none
        (some ⟨"start", some "Yesterday", none⟩) stBase).1.error_message
      = some "Song not found for playback." :=
  claim_C5_amended_playback_not_found (some (.jobj [("tracks", .jarr [])]))
    ⟨"start", some "Yesterday", none⟩ stBase "Yesterday" "Yesterday"
    rfl rfl rfl (by decide) rfl (by rfl)

/-- Counterexample to C5 as stated: at the concrete no-hit input the node
*does* carry a dispatch error on the turn — `error_message` is set to
`"Song not found for playback."`, not left clear. -/
theorem claim_C5_counterexample :
    (spotifyActionNode true (some (.jobj [("tracks", .jarr [])])) none none none none
        (some ⟨"start", some "Wonderwall", none⟩) stBase).1.error_message
      = some "Song not found for playback."
    ∧ some "Song not found for playback." ≠ (none : Option String) := by
  refine ⟨rfl, ?_⟩
  simp

/-! ### Claim C7 — non-profile query resolution -/

/-- The source's per-entity keep test agrees with the claim's wording. -/
theorem keep_eq_claimKeep (t : String) (details : List (String × Json))
    (idf : Option String) :
    (if (match idf with
         | some s => s != ""
         | none => false) = true
     then entityIdentifierMatch t details (idf.getD "") else true)
      = claimKeepEntity t idf details := by
  cases idf with
  | none => rfl
  | some s =>
    by_cases hs : s = ""
    · subst hs
      rfl
    · simp only [claimKeepEntity, hs, if_neg]
      have hb : (s != "") = true := by simp [hs]
      simp [hb, entityIdentifierMatch, List.any, Bool.or_assoc]

/-- The source's per-entity contribution agrees, pointwise, with the
claim-side projection rule. -/
theorem entityQueryFact_eq_claim (t : String) (e : UserEntity) (idf : Option String)
    (attrs : Option (List String)) :
    entityQueryFact t e idf attrs =
      (match e.details_json with
       | .jobj details =>
         if claimKeepEntity t idf details then
           match attrs with
           | some l =>
             if l.isEmpty then
               if details.isEmpty then none
               else some (.jobj [("entity_type", .jstr e.entity_type),
                                 ("details", .jobj details)])
             else
               let proj := l.filterMap (fun a => (lookupJ details a).map (fun v => (a, v)))
               if proj.isEmpty then none
               else some (.jobj [("entity_type", .jstr e.entity_type),
                                 ("details", .jobj proj)])
           | none =>
             if details.isEmpty then none
             else some (.jobj [("entity_type", .jstr e.entity_type),
                               ("details", .jobj details)])
         else none
       | _ => none) := by
  obtain ⟨eid, euid, etype, edet⟩ := e
  cases edet with
  | jobj details =>
    dsimp only [entityQueryFact]
    rw [← keep_eq_claimKeep t details idf]
    cases attrs with
    | none => simp
    | some l =>
      by_cases hl : l.isEmpty
      · simp [hl]
      · simp [hl]
  | null => rfl
  | jbool b => rfl
  | jnum n => rfl
  | jstr s => rfl
  | jarr l => rfl

/-- The entity fetch of the resolver is the first page (100 rows) of the
user's rows of the queried type. -/
theorem getUserEntities_first_page (db : List UserEntity) (uid : Nat) (t : String)
    (hne : t ≠ "") :
    getUserEntities db uid (some t) 100 0
      = (db.filter (fun e => decide (e.user_id = uid ∧ e.entity_type = t))).take 100 := by
  unfold getUserEntities
  simp only [hne, if_pos, ne_eq, not_false_iff, List.drop_zero, if_true]
  rw [List.filter_filter]
  congr 1
  apply List.filter_congr
  intro e _
  by_cases h1 : e.user_id = uid <;> by_cases h2 : e.entity_type = t <;> simp [h1, h2]

/-- C7 (amended): for a non-profile, non-empty entity type the resolver
computes exactly the claim's fetch–filter–project pipeline — restricted
to the repository's first page of 100 rows, and dropping a matched
entity whose whole details map is empty — and on the claim's concrete
pet example it returns exactly the breed-projected Milo fact. -/
theorem claim_C7_amended_query_resolution (u : Option UserProfile) (db : List UserEntity)
    (uid : Nat) (t : String) (idf : Option String) (attrs : Option (List String))
    (hprof : t ∉ profileTypes) (hne : t ≠ "") :
    queryFactsResolve u db uid ⟨some t, idf, attrs⟩ = claimQueryResolve db uid t idf attrs
    ∧ queryFactsResolve none miloDb 1 ⟨some "pet", some "Milo", some ["breed"]⟩
        = [Json.jobj [("entity_type", .jstr "pet"), ("details", .jobj [("breed", .jstr "Tabby")])]] := by
  constructor
  · unfold queryFactsResolve claimQueryResolve
    simp only [hprof, hne, if_neg, if_false, not_false_iff]
    rw [getUserEntities_first_page db uid t hne]
    apply List.filterMap_congr
    intro e _
    exact entityQueryFact_eq_claim t e idf attrs
  · rfl

/-- Witness for the amended C7 at the Milo store. -/
theorem claim_C7_amended_query_resolution_witness :
    queryFactsResolve none miloDb 1 ⟨some "pet", some "Milo", some ["breed"]⟩
      = claimQueryResolve miloDb 1 "pet" (some "Milo") (some ["breed"]) :=
  (claim_C7_amended_query_resolution none miloDb 1 "pet" (some "Milo") (some ["breed"])
    (by decide) (by decide)).1

/-- Counterexample to C7 as stated: with 101 stored matching pets the
resolver returns only 100 facts — the fetch is capped at the default
page limit, so it does not fetch *all* of the user's entities of the
type. -/
theorem claim_C7_counterexample :
    bigPetDb.length = 101
    ∧ (queryFactsResolve none bigPetDb 1 ⟨some "pet", none, none⟩).length = 100 := by
  constructor
  · rfl
  · rfl

/-! ### Claim C2, stage 1 — decimal round-trip lemmas -/

/-- `10^(number of digits of n)`, following `natRender`'s recursion. -/
def pow10len (n : Nat) : Nat :=
  if n < 10 then 10 else 10 * pow10len (n / 10)
termination_by n
decreasing_by exact Nat.div_lt_self (by omega) (by omega)

/-- The digit table inverts `digitVal` below 10. -/
theorem digitVal_digitChar (d : Nat) (h : d < 10) : digitVal (digitChar d) = d := by
  interval_cases d <;> rfl

/-- The digit table lands in the digit range. -/
theorem digitChar_isDigit (d : Nat) (h : d < 10) : isDigitC (digitChar d) = true := by
  interval_cases d <;> rfl

/-- Rendered naturals consist of digit characters only. -/
theorem natRender_all_digit (n : Nat) : ∀ c ∈ natRender n, isDigitC c = true := by
  induction n using Nat.strong_induction_on with
  | _ n ih =>
    rw [natRender]
    by_cases h : n < 10
    · rw [dif_pos h]
      intro c hc
      rw [List.mem_singleton] at hc
      subst hc
      exact digitChar_isDigit n h
    · rw [dif_neg h]
      intro c hc
      rw [List.mem_append] at hc
      cases hc with
      | inl hc => exact ih (n / 10) (Nat.div_lt_self (by omega) (by omega)) c hc
      | inr hc =>
        rw [List.mem_singleton] at hc
        subst hc
        exact digitChar_isDigit (n % 10) (Nat.mod_lt n (by omega))

/-- A rendered natural is never empty. -/
theorem natRender_ne_nil (n : Nat) : natRender n ≠ [] := by
  rw [natRender]
  by_cases h : n < 10
  · rw [dif_pos h]
    simp
  · rw [dif_neg h]
    simp

/-- Whether a list does not begin with a decimal digit (the delimiter
condition after a rendered number). -/
def headNotDigit : List Char → Bool
  | [] => true
  | c :: _ => ¬ isDigitC c

/-- A non-digit head stops the digit accumulator at once. -/
theorem parseDigitsAux_stop (l : List Char) (acc : Nat)
    (h : headNotDigit l = true) :
    parseDigitsAux l acc = (acc, l) := by
  cases l with
  | nil => rfl
  | cons c rest =>
    simp only [headNotDigit, decide_eq_true_eq] at h
    simp [parseDigitsAux, h]

/-- Consuming a rendered natural multiplies the accumulator by
`pow10len` and adds the value. -/
theorem parseDigitsAux_natRender (n : Nat) : ∀ (acc : Nat) (rest : List Char),
    parseDigitsAux (natRender n ++ rest) acc = parseDigitsAux rest (acc * pow10len n + n) := by
  induction n using Nat.strong_induction_on with
  | _ n ih =>
    intro acc rest
    by_cases h : n < 10
    · rw [natRender, dif_pos h, pow10len, if_pos h]
      simp only [List.singleton_append, parseDigitsAux, digitChar_isDigit n h, if_pos]
      rw [digitVal_digitChar n h]
      rfl
    · rw [natRender, dif_neg h, pow10len, if_neg h, List.append_assoc, List.singleton_append]
      rw [ih (n / 10) (Nat.div_lt_self (by omega) (by omega))]
      have hd : isDigitC (digitChar (n % 10)) = true :=
        digitChar_isDigit (n % 10) (Nat.mod_lt n (by omega))
      simp only [parseDigitsAux, hd, if_pos]
      rw [digitVal_digitChar (n % 10) (Nat.mod_lt n (by omega))]
      have hrec : n / 10 * 10 + n % 10 = n := by omega
      congr 1
      generalize pow10len (n / 10) = p
      have : (acc * (10 * p) + n) = ((acc * p + n / 10) * 10 + n % 10) := by
        calc acc * (10 * p) + n = acc * p * 10 + (n / 10 * 10 + n % 10) := by
              rw [hrec]; ring
          _ = (acc * p + n / 10) * 10 + n % 10 := by ring
      omega

/-- Parsing a rendered natural followed by a non-digit delimiter yields
the natural and the delimiter. -/
theorem parseNatNum_natRender (n : Nat) (rest : List Char)
    (h : headNotDigit rest = true) :
    parseNatNum (natRender n ++ rest) = some (n, rest) := by
  cases hr : natRender n with
  | nil => exact absurd hr (natRender_ne_nil n)
  | cons c t =>
    have hc : isDigitC c = true := by
      apply natRender_all_digit n
      rw [hr]
      exact List.mem_cons_self c t
    have step : parseDigitsAux (natRender n ++ rest) 0 = parseDigitsAux rest n := by
      rw [parseDigitsAux_natRender n 0 rest]
      simp
    rw [hr] at step
    simp only [List.cons_append, parseDigitsAux, hc, if_pos] at step
    simp only [List.cons_append, parseNatNum, hc, if_pos]
    rw [show (0 * 10 + digitVal c) = digitVal c from by omega] at step
    rw [List.append_eq] at step
    rw [step, parseDigitsAux_stop rest n h]

/-- A digit character is not a minus sign. -/
theorem isDigitC_ne_minus (c : Char) (h : isDigitC c = true) : ¬ (c.toNat = 45) := by
  simp only [isDigitC, Bool.and_eq_true, decide_eq_true_eq] at h
  omega

/-- Parsing a rendered integer followed by a non-digit delimiter yields
the integer and the delimiter. -/
theorem parseNum_intRender (n : Int) (rest : List Char)
    (h : headNotDigit rest = true) :
    parseNum (intRender n ++ rest) = some (n, rest) := by
  by_cases hn : n < 0
  · rw [intRender, if_pos hn, List.cons_append]
    unfold parseNum
    dsimp only
    rw [parseNatNum_natRender (-n).toNat rest h]
    rw [if_pos (show ('-').toNat = 45 from rfl)]
    simp [Int.toNat_of_nonneg (show (0:Int) ≤ -n by omega)]
  · rw [intRender, if_neg hn]
    cases hr : natRender n.toNat with
    | nil => exact absurd hr (natRender_ne_nil n.toNat)
    | cons c t =>
      have hc : isDigitC c = true := by
        apply natRender_all_digit n.toNat
        rw [hr]
        exact List.mem_cons_self c t
      rw [List.cons_append]
      unfold parseNum
      dsimp only
      rw [if_neg (isDigitC_ne_minus c hc)]
      rw [← List.cons_append, ← hr]
      rw [parseNatNum_natRender n.toNat rest h]
      simp [Int.toNat_of_nonneg (show (0:Int) ≤ n by omega)]

/-! ### Claim C2, stage 2 — scalar-value parse lemmas -/

/-- Structure eta: rebuilding a string from its characters is the
identity. -/
theorem string_mk_data (s : String) : String.mk s.data = s := rfl

/-- Unpacking of the benign-character test. -/
theorem goodChar_spec (c : Char) (h : goodChar c = true) :
    c.toNat ≠ 34 ∧ c.toNat ≠ 92 ∧ c.toNat ≠ 123 ∧ c.toNat ≠ 125 ∧
    c.toNat ≠ 96 ∧ c.toNat ≠ 60 := by
  simp only [goodChar, Bool.and_eq_true, bne_iff_ne, ne_eq] at h
  tauto

/-- `dropWs` walks past a whitespace head. -/
theorem dropWs_cons_ws (c : Char) (l : List Char) (h : jsonWsChar c = true) :
    dropWs (c :: l) = dropWs l := by
  simp [dropWs, List.dropWhile_cons, h]

/-- `dropWs` stops at a non-whitespace head. -/
theorem dropWs_cons_nonws (c : Char) (l : List Char) (h : jsonWsChar c = false) :
    dropWs (c :: l) = c :: l := by
  simp [dropWs, List.dropWhile_cons, h]

/-- A benign-character string body parses back to itself, consuming the
closing quote. -/
theorem parseStrBodyAux_roundtrip (l : List Char) (rest : List Char)
    (h : l.all goodChar = true) :
    parseStrBodyAux (l ++ quoteC :: rest) = some (l, rest) := by
  induction l with
  | nil =>
    simp only [List.nil_append]
    unfold parseStrBodyAux
    rw [if_pos (show quoteC.toNat = 34 from rfl)]
  | cons c t ih =>
    simp only [List.all_cons, Bool.and_eq_true] at h
    obtain ⟨hc, ht⟩ := h
    obtain ⟨h34, h92, _, _, _, _⟩ := goodChar_spec c hc
    simp only [List.cons_append]
    unfold parseStrBodyAux
    rw [if_neg h34, if_neg h92, ih ht]
    rfl

/-- Any fuel parses a rendered benign string value. -/
theorem parseValue_str (fuel : Nat) (s : String) (rest : List Char)
    (hs : s.data.all goodChar = true) :
    parseValue (fuel + 1) (quoteC :: (s.data ++ quoteC :: rest)) = some (.jstr s, rest) := by
  unfold parseValue
  dsimp only
  rw [if_neg (show ¬ (quoteC.toNat = 123) from by decide),
      if_neg (show ¬ (quoteC.toNat = 91) from by decide),
      if_pos (show quoteC.toNat = 34 from rfl),
      parseStrBodyAux_roundtrip s.data rest hs]
  simp [string_mk_data]

/-- The head of a rendered integer is a minus sign or a digit. -/
theorem intRender_head (n : Int) :
    ∃ c t, intRender n = c :: t ∧ (c.toNat = 45 ∨ isDigitC c = true) := by
  by_cases hn : n < 0
  · exact ⟨'-', natRender (-n).toNat, by rw [intRender, if_pos hn], Or.inl rfl⟩
  · cases hr : natRender n.toNat with
    | nil => exact absurd hr (natRender_ne_nil n.toNat)
    | cons c t =>
      refine ⟨c, t, by rw [intRender, if_neg hn, hr], Or.inr ?_⟩
      apply natRender_all_digit n.toNat
      rw [hr]
      exact List.mem_cons_self c t

/-- Any fuel parses a rendered integer value, up to a non-digit
delimiter. -/
theorem parseValue_num (fuel : Nat) (n : Int) (rest : List Char)
    (h : headNotDigit rest = true) :
    parseValue (fuel + 1) (intRender n ++ rest) = some (.jnum n, rest) := by
  obtain ⟨c, t, hr, hc⟩ := intRender_head n
  have hcodes : c.toNat = 45 ∨ (48 ≤ c.toNat ∧ c.toNat ≤ 57) := by
    cases hc with
    | inl h1 => exact Or.inl h1
    | inr h1 =>
      simp only [isDigitC, Bool.and_eq_true, decide_eq_true_eq] at h1
      exact Or.inr h1
  rw [hr, List.cons_append]
  unfold parseValue
  dsimp only
  rw [if_neg (show ¬ (c.toNat = 123) from by omega),
      if_neg (show ¬ (c.toNat = 91) from by omega),
      if_neg (show ¬ (c.toNat = 34) from by omega),
      if_neg (show ¬ (c = 't') from by
        intro he
        subst he
        revert hcodes
        decide),
      if_neg (show ¬ (c = 'f') from by
        intro he
        subst he
        revert hcodes
        decide),
      if_neg (show ¬ (c = 'n') from by
        intro he
        subst he
        revert hcodes
        decide)]
  rw [← List.cons_append, ← hr, parseNum_intRender n rest h]
  rfl

/-! ### Claim C2, stage 3 — flat-object round-trip -/


theorem renderMembers_cons_head (b : String × Json) (t : List (String × Json)) :
    ∃ tl, renderMembers (b :: t) = quoteC :: tl := by
  obtain ⟨k, v⟩ := b
  cases t with
  | nil => exact ⟨_, rfl⟩
  | cons b2 t2 => exact ⟨_, rfl⟩

theorem parseMembers_entry (f2 : Nat) (k : String) (v : Json) (suf : List Char)
    (hk : k.data.all goodChar = true) (hv : flatVal v = true)
    (hsufw : ∃ c tl, suf = c :: tl ∧ jsonWsChar c = false) :
    parseMembers (f2 + 1 + 1) (renderEntry (k, v) ++ suf) =
    (match parseValue (f2 + 1) (renderVal v ++ suf) with
     | none => none
     | some (v2, r3) =>
       match dropWs r3 with
       | e :: r4 =>
         if e.toNat = 44 then Option.map (fun p => ((k, v2) :: p.1, p.2)) (parseMembers (f2 + 1) (dropWs r4))
         else if e.toNat = 125 then some ([(k, v2)], r4) else none
       | [] => none) := by
  unfold renderEntry
  simp only [List.cons_append, List.append_assoc]
  unfold parseMembers
  dsimp only
  rw [if_pos (show quoteC.toNat = 34 from rfl)]
  rw [parseStrBodyAux_roundtrip k.data _ hk]
  dsimp only
  rw [dropWs_cons_nonws ':' _ (by decide)]
  dsimp only
  rw [if_pos (show (':').toNat = 58 from rfl)]
  rw [dropWs_cons_ws ' ' _ (by decide)]
  obtain ⟨c, tl, hsuf, hcw⟩ := hsufw
  have hval : dropWs (renderVal v ++ suf) = renderVal v ++ suf := by
    cases v with
    | jstr s =>
      simp only [renderVal, List.cons_append]
      exact dropWs_cons_nonws quoteC _ (by decide)
    | jnum n =>
      obtain ⟨c2, t3, hr, hcode⟩ := intRender_head n
      have hnonws : jsonWsChar c2 = false := by
        rcases hcode with h1 | h1
        · simp [jsonWsChar, h1]
        · simp only [isDigitC, Bool.and_eq_true, decide_eq_true_eq] at h1
          simp only [jsonWsChar, Bool.or_eq_false_iff, decide_eq_false_iff_not]
          omega
      show dropWs (intRender n ++ suf) = intRender n ++ suf
      rw [hr, List.cons_append]
      exact dropWs_cons_nonws c2 _ hnonws
    | null => cases hv
    | jbool b => cases hv
    | jarr l => cases hv
    | jobj kvs => cases hv
  rw [hval]
  rfl



theorem parseValue_flat (f2 : Nat) (v : Json) (suf : List Char)
    (hv : flatVal v = true) (hsufd : headNotDigit suf = true) :
    parseValue (f2 + 1) (renderVal v ++ suf) = some (v, suf) := by
  cases v with
  | jstr s =>
    simp only [renderVal, List.cons_append, List.append_assoc, List.singleton_append]
    exact parseValue_str f2 s suf hv
  | jnum n => exact parseValue_num f2 n suf hsufd
  | null => cases hv
  | jbool b => cases hv
  | jarr l => cases hv
  | jobj kvs => cases hv

theorem parseMembers_roundtrip (kvs : List (String × Json)) :
    ∀ (f : Nat) (rest : List Char), kvs ≠ [] → kvs.length ≤ f → flatOk kvs = true →
    parseMembers (f + 1) (renderMembers kvs ++ rbrace :: rest) = some (kvs, rest) := by
  induction kvs with
  | nil =>
    intro f rest hne
    exact absurd rfl hne
  | cons kv t ih =>
    intro f rest hne hlen hok
    obtain ⟨k, v⟩ := kv
    simp only [flatOk, List.all_cons, Bool.and_eq_true] at hok
    obtain ⟨⟨hk, hv⟩, ht⟩ := hok
    obtain ⟨f2, rfl⟩ : ∃ f2, f = f2 + 1 := ⟨f - 1, by
      simp only [List.length_cons] at hlen
      omega⟩
    cases t with
    | nil =>
      show parseMembers (f2 + 1 + 1) (renderEntry (k, v) ++ rbrace :: rest) = some ([(k, v)], rest)
      rw [parseMembers_entry f2 k v (rbrace :: rest) hk hv ⟨rbrace, rest, rfl, by decide⟩]
      rw [parseValue_flat f2 v (rbrace :: rest) hv (by rfl)]
      dsimp only
      rw [dropWs_cons_nonws rbrace _ (by decide)]
      dsimp only
      rw [if_neg (show ¬ (rbrace.toNat = 44) from by decide),
          if_pos (show rbrace.toNat = 125 from rfl)]
    | cons b t2 =>
      show parseMembers (f2 + 1 + 1)
          ((renderEntry (k, v) ++ ',' :: ' ' :: renderMembers (b :: t2)) ++ rbrace :: rest)
          = some ((k, v) :: b :: t2, rest)
      rw [List.append_assoc, List.cons_append, List.cons_append]
      rw [parseMembers_entry f2 k v (',' :: ' ' :: (renderMembers (b :: t2) ++ rbrace :: rest))
          hk hv ⟨',', _, rfl, by decide⟩]
      rw [parseValue_flat f2 v _ hv (by rfl)]
      dsimp only
      rw [dropWs_cons_nonws ',' _ (by decide)]
      dsimp only
      rw [if_pos (show (',').toNat = 44 from rfl)]
      rw [dropWs_cons_ws ' ' _ (by decide)]
      obtain ⟨tl, hhd⟩ := renderMembers_cons_head b t2
      rw [hhd, List.cons_append, dropWs_cons_nonws quoteC _ (by decide), ← List.cons_append, ← hhd]
      obtain ⟨f3, rfl⟩ : ∃ f3, f2 = f3 + 1 := ⟨f2 - 1, by
        simp only [List.length_cons] at hlen
        omega⟩
      rw [ih (f3 + 1) rest (by simp) (by
        simp only [List.length_cons] at hlen ⊢
        omega) ht]
      rfl


/-- A rendered member list is at least as long as the member count. -/
theorem le_renderMembers_length (kvs : List (String × Json)) :
    kvs.length ≤ (renderMembers kvs).length := by
  induction kvs with
  | nil => simp [renderMembers]
  | cons kv t ih =>
    cases t with
    | nil =>
      obtain ⟨k, v⟩ := kv
      simp [renderMembers, renderEntry]
    | cons b t2 =>
      obtain ⟨k, v⟩ := kv
      have hih : t2.length + 1 ≤ (renderMembers (b :: t2)).length := by
        simpa using ih
      show (b :: t2).length + 1 ≤ (renderEntry (k, v) ++ ',' :: ' ' :: renderMembers (b :: t2)).length
      simp only [List.length_append, List.length_cons, renderEntry]
      omega

/-- Sufficient fuel parses a rendered flat object, leaving the trailing
text unconsumed. -/
theorem parseValue_renderObj (kvs : List (String × Json)) (f : Nat) (rest : List Char)
    (hlen : kvs.length + 1 ≤ f) (hok : flatOk kvs = true) :
    parseValue (f + 1) (renderObjChars kvs ++ rest) = some (.jobj kvs, rest) := by
  show parseValue (f + 1) ((lbrace :: (renderMembers kvs ++ [rbrace])) ++ rest) = _
  rw [List.cons_append, List.append_assoc, List.singleton_append]
  unfold parseValue
  dsimp only
  rw [if_pos (show lbrace.toNat = 123 from rfl)]
  cases kvs with
  | nil =>
    show (match dropWs (renderMembers [] ++ rbrace :: rest) with
      | d :: r1 =>
        if d.toNat = 125 then some (Json.jobj [], r1)
        else Option.map (fun p => (Json.jobj p.1, p.2)) (parseMembers f (d :: r1))
      | [] => none) = some (Json.jobj [], rest)
    show (match dropWs (rbrace :: rest) with
      | d :: r1 =>
        if d.toNat = 125 then some (Json.jobj [], r1)
        else Option.map (fun p => (Json.jobj p.1, p.2)) (parseMembers f (d :: r1))
      | [] => none) = some (Json.jobj [], rest)
    rw [dropWs_cons_nonws rbrace _ (by decide)]
    dsimp only
    rw [if_pos (show rbrace.toNat = 125 from rfl)]
  | cons b t =>
    obtain ⟨tl, hhd⟩ := renderMembers_cons_head b t
    rw [hhd, List.cons_append, dropWs_cons_nonws quoteC _ (by decide)]
    dsimp only
    rw [if_neg (show ¬ (quoteC.toNat = 125) from by decide)]
    rw [← List.cons_append, ← hhd]
    obtain ⟨f2, rfl⟩ : ∃ f2, f = f2 + 1 := ⟨f - 1, by
      simp only [List.length_cons] at hlen
      omega⟩
    rw [parseMembers_roundtrip (b :: t) f2 rest (by simp) (by
      simp only [List.length_cons] at hlen ⊢
      omega) hok]
    rfl

/-- `raw_decode` on a rendered flat object plus trailing text yields the
object and the trailing text: the decoder does not require the object to
be the whole string. -/
theorem rawDecode_renderObj (kvs : List (String × Json)) (rest : List Char)
    (hok : flatOk kvs = true) :
    rawDecode (renderObjChars kvs ++ rest) = some (.jobj kvs, rest) := by
  unfold rawDecode
  have hlen : (renderObjChars kvs ++ rest).length ≥ kvs.length + 1 := by
    have h1 := le_renderMembers_length kvs
    simp only [renderObjChars, List.length_append, List.length_cons]
    omega
  obtain ⟨f, hf, hfl⟩ : ∃ f, 2 * (renderObjChars kvs ++ rest).length + 4 = f + 1 ∧
      kvs.length + 1 ≤ f := by
    refine ⟨2 * (renderObjChars kvs ++ rest).length + 3, by omega, by omega⟩
  rw [hf]
  exact parseValue_renderObj kvs f rest hfl hok

/-! ### Claim C2, stage 4 — behaviour of the regex models on benign text -/

/-- A pattern whose head character does not occur in the text never
occurs in it. -/
theorem splitAtSub_none_of_head_notin (c0 : Char) (p l : List Char)
    (h : ∀ c ∈ l, c ≠ c0) : splitAtSub (c0 :: p) l = none := by
  induction l with
  | nil => rfl
  | cons c rest ih =>
    have hc : c ≠ c0 := h c (List.mem_cons_self c rest)
    have hpre : (c0 :: p).isPrefixOf (c :: rest) = false := by
      rw [show (c0 :: p).isPrefixOf (c :: rest) = (c0 == c && p.isPrefixOf rest) from rfl]
      have : (c0 == c) = false := beq_eq_false_iff_ne.mpr (Ne.symm hc)
      simp [this]
    rw [splitAtSub, if_neg (by simp [hpre]),
        ih (fun c2 h2 => h c2 (List.mem_cons_of_mem c h2))]
    rfl

/-- Without a `<` in the text, the sidecar substitution is the
identity. -/
theorem stripThinkAux_id (fuel : Nat) (l : List Char)
    (h : ∀ c ∈ l, c.toNat ≠ 60) : stripThinkAux fuel l = l := by
  cases fuel with
  | zero => rfl
  | succ f =>
    have h2 : thinkOpen = '<' :: "think>".data := rfl
    have hnone : splitAtSub thinkOpen l = none := by
      rw [h2]
      exact splitAtSub_none_of_head_notin '<' _ l
        (fun c hc he => h c hc (by rw [he]; rfl))
    rw [stripThinkAux, hnone]

/-- Without a backtick in the text, the fenced-JSON search fails. -/
theorem fenceSearchAux_none (l : List Char) (h : ∀ c ∈ l, c.toNat ≠ 96) :
    fenceSearchAux l = none := by
  induction l with
  | nil => rfl
  | cons c rest ih =>
    have hc : c.toNat ≠ 96 := h c (List.mem_cons_self c rest)
    have hf : fenceOpen = Char.ofNat 96 :: "\x60\x60json".data := rfl
    have hpre : fenceOpen.isPrefixOf (c :: rest) = false := by
      rw [hf, show (Char.ofNat 96 :: "\x60\x60json".data).isPrefixOf (c :: rest)
            = (Char.ofNat 96 == c && "\x60\x60json".data.isPrefixOf rest) from rfl]
      have : (Char.ofNat 96 == c) = false := by
        apply beq_eq_false_iff_ne.mpr
        intro he
        exact hc (by rw [← he]; rfl)
      simp [this]
    rw [fenceSearchAux, hpre]
    simp only [Bool.false_eq_true, if_false]
    exact ih (fun c2 h2 => h c2 (List.mem_cons_of_mem c h2))

/-- The lazy bare group ends at the first closing brace. -/
theorem bareGroupEnd_roundtrip (mid post : List Char)
    (h : ∀ c ∈ mid, c.toNat ≠ 125) :
    bareGroupEnd (mid ++ rbrace :: post) = some (mid ++ [rbrace]) := by
  induction mid with
  | nil =>
    simp only [List.nil_append]
    rw [bareGroupEnd, if_pos (show rbrace.toNat = 125 from rfl)]
  | cons c t ih =>
    have hc : c.toNat ≠ 125 := h c (List.mem_cons_self c t)
    simp only [List.cons_append]
    rw [bareGroupEnd, if_neg hc, ih (fun c2 h2 => h c2 (List.mem_cons_of_mem c h2))]
    rfl

/-- The bare search starts at the first opening brace and captures
through the first closing brace. -/
theorem bareSearchAux_roundtrip (pre mid post : List Char)
    (hpre : ∀ c ∈ pre, c.toNat ≠ 123) (hmid : ∀ c ∈ mid, c.toNat ≠ 125) :
    bareSearchAux (pre ++ lbrace :: (mid ++ rbrace :: post))
      = some (lbrace :: (mid ++ [rbrace])) := by
  induction pre with
  | nil =>
    simp only [List.nil_append]
    rw [bareSearchAux, if_pos (show lbrace.toNat = 123 from rfl),
        bareGroupEnd_roundtrip mid post hmid]
    rfl
  | cons c t ih =>
    have hc : c.toNat ≠ 123 := hpre c (List.mem_cons_self c t)
    simp only [List.cons_append]
    rw [bareSearchAux, if_neg hc]
    exact ih (fun c2 h2 => hpre c2 (List.mem_cons_of_mem c h2))

/-- `dropWhile` passes over an append whose right part starts with a
non-matching character. -/
theorem dropWhile_append_head (p : Char → Bool) (l1 : List Char) (c : Char)
    (l2 : List Char) (h : p c = false) :
    List.dropWhile p (l1 ++ c :: l2) = List.dropWhile p l1 ++ c :: l2 := by
  induction l1 with
  | nil => simp [List.dropWhile_cons, h]
  | cons d t ih =>
    by_cases hd : p d <;> simp [List.dropWhile_cons, hd, ih]

/-- Left strip distributes over text followed by an opening brace. -/
theorem trimL_decomp (pre X : List Char) :
    trimL (pre ++ lbrace :: X) = trimL pre ++ lbrace :: X :=
  dropWhile_append_head reWsChar pre lbrace X (by decide)

/-- Right strip leaves a block ending in a closing brace alone and
strips only the trailing text. -/
theorem trimR_decomp (y post : List Char) :
    trimR ((y ++ [rbrace]) ++ post) = (y ++ [rbrace]) ++ trimR post := by
  unfold trimR
  rw [List.reverse_append, List.reverse_append,
      show ([rbrace] : List Char).reverse = [rbrace] from rfl,
      List.singleton_append,
      dropWhile_append_head reWsChar post.reverse rbrace y.reverse (by decide),
      List.reverse_append, List.reverse_cons]
  simp [List.append_assoc]

/-! ### Claim C2, stage 5 — character classification and assembly -/

/-- Rendered integers contain only minus signs and digits. -/
theorem intRender_chars (n : Int) :
    ∀ c ∈ intRender n, c.toNat = 45 ∨ isDigitC c = true := by
  unfold intRender
  by_cases hn : n < 0
  · rw [if_pos hn]
    intro c hc
    rcases List.mem_cons.mp hc with h1 | h1
    · exact Or.inl (by rw [h1]; rfl)
    · exact Or.inr (natRender_all_digit _ c h1)
  · rw [if_neg hn]
    intro c hc
    exact Or.inr (natRender_all_digit _ c hc)

/-- The characters of a rendered flat scalar avoid the brace, backtick
and angle-bracket codes the searches react to. -/
theorem renderVal_chars (v : Json) (hv : flatVal v = true) :
    ∀ c ∈ renderVal v, c.toNat ≠ 125 ∧ c.toNat ≠ 96 ∧ c.toNat ≠ 60 := by
  cases v with
  | jstr s =>
    intro c hc
    rw [show renderVal (.jstr s) = quoteC :: (s.data ++ [quoteC]) from rfl] at hc
    rcases List.mem_cons.mp hc with h1 | h1
    · rw [h1]
      exact ⟨by decide, by decide, by decide⟩
    · rcases List.mem_append.mp h1 with h2 | h2
      · obtain ⟨_, _, _, h125, h96, h60⟩ := goodChar_spec c (by
          have := hv
          simp only [flatVal, List.all_eq_true] at this
          exact this c h2)
        exact ⟨h125, h96, h60⟩
      · rw [List.mem_singleton] at h2
        rw [h2]
        exact ⟨by decide, by decide, by decide⟩
  | jnum n =>
    intro c hc
    rcases intRender_chars n c hc with h1 | h1
    · omega
    · simp only [isDigitC, Bool.and_eq_true, decide_eq_true_eq] at h1
      omega
  | null => cases hv
  | jbool b => cases hv
  | jarr l => cases hv
  | jobj kvs => cases hv

/-- The characters of a rendered member avoid the reactive codes. -/
theorem renderEntry_chars (k : String) (v : Json)
    (hk : k.data.all goodChar = true) (hv : flatVal v = true) :
    ∀ c ∈ renderEntry (k, v), c.toNat ≠ 125 ∧ c.toNat ≠ 96 ∧ c.toNat ≠ 60 := by
  intro c hc
  rw [show renderEntry (k, v)
        = quoteC :: (k.data ++ quoteC :: ':' :: ' ' :: renderVal v) from rfl] at hc
  rcases List.mem_cons.mp hc with h1 | h1
  · rw [h1]
    exact ⟨by decide, by decide, by decide⟩
  · rcases List.mem_append.mp h1 with h2 | h2
    · obtain ⟨_, _, _, h125, h96, h60⟩ := goodChar_spec c (by
        simp only [List.all_eq_true] at hk
        exact hk c h2)
      exact ⟨h125, h96, h60⟩
    · rcases List.mem_cons.mp h2 with h3 | h3
      · rw [h3]
        exact ⟨by decide, by decide, by decide⟩
      · rcases List.mem_cons.mp h3 with h4 | h4
        · rw [h4]
          exact ⟨by decide, by decide, by decide⟩
        · rcases List.mem_cons.mp h4 with h5 | h5
          · rw [h5]
            exact ⟨by decide, by decide, by decide⟩
          · exact renderVal_chars v hv c h5

/-- The characters of a rendered member list avoid the reactive codes. -/
theorem renderMembers_chars (kvs : List (String × Json)) (hok : flatOk kvs = true) :
    ∀ c ∈ renderMembers kvs, c.toNat ≠ 125 ∧ c.toNat ≠ 96 ∧ c.toNat ≠ 60 := by
  induction kvs with
  | nil =>
    intro c hc
    rw [show renderMembers [] = [] from rfl] at hc
    cases hc
  | cons kv t ih =>
    obtain ⟨k, v⟩ := kv
    simp only [flatOk, List.all_cons, Bool.and_eq_true] at hok
    obtain ⟨⟨hk, hv⟩, ht⟩ := hok
    cases t with
    | nil => exact renderEntry_chars k v hk hv
    | cons b t2 =>
      intro c hc
      rw [show renderMembers ((k, v) :: b :: t2)
            = renderEntry (k, v) ++ ',' :: ' ' :: renderMembers (b :: t2) from rfl] at hc
      rcases List.mem_append.mp hc with h1 | h1
      · exact renderEntry_chars k v hk hv c h1
      · rcases List.mem_cons.mp h1 with h2 | h2
        · rw [h2]
          exact ⟨by decide, by decide, by decide⟩
        · rcases List.mem_cons.mp h2 with h3 | h3
          · rw [h3]
            exact ⟨by decide, by decide, by decide⟩
          · exact ih ht c h3

/-- Left-stripping only discards characters. -/
theorem mem_trimL {c : Char} {l : List Char} (h : c ∈ trimL l) : c ∈ l :=
  (List.dropWhile_sublist reWsChar).subset h

/-- Right-stripping only discards characters. -/
theorem mem_trimR {c : Char} {l : List Char} (h : c ∈ trimR l) : c ∈ l := by
  unfold trimR at h
  rw [List.mem_reverse] at h
  exact List.mem_reverse.mp ((List.dropWhile_sublist reWsChar).subset h)

/-- Python `strip` on prose–object–prose text strips only the prose. -/
theorem pyStripL_decomp (pre body post : List Char) :
    pyStripL (pre ++ (lbrace :: (body ++ [rbrace])) ++ post)
      = trimL pre ++ (lbrace :: (body ++ [rbrace])) ++ trimR post := by
  unfold pyStripL
  have h1 : pre ++ (lbrace :: (body ++ [rbrace])) ++ post
      = pre ++ lbrace :: ((body ++ [rbrace]) ++ post) := by
    simp [List.append_assoc]
  rw [h1, trimL_decomp]
  have h2 : trimL pre ++ lbrace :: ((body ++ [rbrace]) ++ post)
      = ((trimL pre ++ lbrace :: body) ++ [rbrace]) ++ post := by
    simp [List.append_assoc]
  rw [h2, trimR_decomp]
  simp [List.append_assoc]

/-- Python `strip` of a brace-delimited block is the identity. -/
theorem pyStripL_obj (body : List Char) :
    pyStripL (lbrace :: (body ++ [rbrace])) = lbrace :: (body ++ [rbrace]) := by
  have h1 : lbrace :: (body ++ [rbrace]) = [] ++ (lbrace :: (body ++ [rbrace])) ++ [] := by
    simp
  rw [h1, pyStripL_decomp [] body []]
  simp [trimL, trimR]

/-- Character bound on a stripped prose–object–prose string. -/
theorem stripped_chars_bound (pre1 post1 : List Char) (kvs : List (String × Json))
    (hok : flatOk kvs = true)
    (hpre : ∀ c ∈ pre1, c.toNat ≠ 123 ∧ c.toNat ≠ 96 ∧ c.toNat ≠ 60)
    (hpost : ∀ c ∈ post1, c.toNat ≠ 96 ∧ c.toNat ≠ 60) :
    ∀ c ∈ pre1 ++ (lbrace :: (renderMembers kvs ++ [rbrace])) ++ post1,
      c.toNat ≠ 96 ∧ c.toNat ≠ 60 := by
  intro c hc
  rcases List.mem_append.mp hc with h1 | h1
  · rcases List.mem_append.mp h1 with h2 | h2
    · exact ⟨(hpre c h2).2.1, (hpre c h2).2.2⟩
    · rcases List.mem_cons.mp h2 with h3 | h3
      · rw [h3]
        exact ⟨by decide, by decide⟩
      · rcases List.mem_append.mp h3 with h4 | h4
        · obtain ⟨_, h96, h60⟩ := renderMembers_chars kvs hok c h4
          exact ⟨h96, h60⟩
        · rw [List.mem_singleton] at h4
          rw [h4]
          exact ⟨by decide, by decide⟩
  · exact hpost c h1

/-- C2 success kernel: a completion that embeds a rendered flat object
between benign prose is located by the bare-brace search, stripped,
decoded without consuming the trailing prose, and validated. -/
theorem extractStructured_flat {α : Type} (validate : Json → Option α) (v : α)
    (pre post : String) (kvs : List (String × Json))
    (hpre : ∀ c ∈ pre.data, c.toNat ≠ 123 ∧ c.toNat ≠ 96 ∧ c.toNat ≠ 60)
    (hpost : ∀ c ∈ post.data, c.toNat ≠ 96 ∧ c.toNat ≠ 60)
    (hok : flatOk kvs = true)
    (hval : validate (.jobj kvs) = some v) :
    extractStructured validate (pre ++ renderObjStr kvs ++ post) = .ok v := by
  unfold extractStructured
  have hdata : (pre ++ renderObjStr kvs ++ post).data
      = pre.data ++ (lbrace :: (renderMembers kvs ++ [rbrace])) ++ post.data := by
    rw [String.data_append, String.data_append]
    rfl
  rw [hdata, pyStripL_decomp pre.data (renderMembers kvs) post.data]
  dsimp only
  have hpre1 : ∀ c ∈ trimL pre.data, c.toNat ≠ 123 ∧ c.toNat ≠ 96 ∧ c.toNat ≠ 60 :=
    fun c hc => hpre c (mem_trimL hc)
  have hpost1 : ∀ c ∈ trimR post.data, c.toNat ≠ 96 ∧ c.toNat ≠ 60 :=
    fun c hc => hpost c (mem_trimR hc)
  rw [stripThinkAux_id _ _ (fun c hc =>
    (stripped_chars_bound (trimL pre.data) (trimR post.data) kvs hok hpre1 hpost1 c hc).2)]
  rw [pyStripL_decomp (trimL pre.data) (renderMembers kvs) (trimR post.data)]
  have hpre2 : ∀ c ∈ trimL (trimL pre.data), c.toNat ≠ 123 ∧ c.toNat ≠ 96 ∧ c.toNat ≠ 60 :=
    fun c hc => hpre1 c (mem_trimL hc)
  have hpost2 : ∀ c ∈ trimR (trimR post.data), c.toNat ≠ 96 ∧ c.toNat ≠ 60 :=
    fun c hc => hpost1 c (mem_trimR hc)
  have hfence : fenceSearchAux
      (trimL (trimL pre.data) ++ (lbrace :: (renderMembers kvs ++ [rbrace]))
        ++ trimR (trimR post.data)) = none :=
    fenceSearchAux_none _ (fun c hc =>
      (stripped_chars_bound (trimL (trimL pre.data)) (trimR (trimR post.data))
        kvs hok hpre2 hpost2 c hc).1)
  have hshape : trimL (trimL pre.data) ++ (lbrace :: (renderMembers kvs ++ [rbrace]))
        ++ trimR (trimR post.data)
      = trimL (trimL pre.data)
        ++ lbrace :: (renderMembers kvs ++ rbrace :: trimR (trimR post.data)) := by
    simp [List.append_assoc]
  have hbare : bareSearchAux
      (trimL (trimL pre.data) ++ (lbrace :: (renderMembers kvs ++ [rbrace]))
        ++ trimR (trimR post.data))
      = some (lbrace :: (renderMembers kvs ++ [rbrace])) := by
    rw [hshape]
    exact bareSearchAux_roundtrip (trimL (trimL pre.data)) (renderMembers kvs)
      (trimR (trimR post.data)) (fun c hc => (hpre2 c hc).1)
      (fun c hc => (renderMembers_chars kvs hok c hc).1)
  rw [show extractJsonCandidate
        (trimL (trimL pre.data) ++ (lbrace :: (renderMembers kvs ++ [rbrace]))
          ++ trimR (trimR post.data))
      = some (lbrace :: (renderMembers kvs ++ [rbrace])) from by
    unfold extractJsonCandidate
    rw [hfence, hbare]]
  dsimp only
  rw [pyStripL_obj]
  have hdec : rawDecode (lbrace :: (renderMembers kvs ++ [rbrace]))
      = some (.jobj kvs, []) := by
    have h0 := rawDecode_renderObj kvs [] hok
    rw [List.append_nil] at h0
    exact h0
  rw [hdec]
  dsimp only
  rw [hval]

/-- Claim C2 (amended): on every completion that embeds a rendered flat
JSON object between benign prose (no stray brace, backtick or `<` before
the object; no backtick or `<` after it), the structured-output
extractor of `_extract_parameters_with_llm` (lines 204-217) locates the
object with the bare-brace search, decodes it without requiring it to be
the whole string (the trailing prose is left unconsumed) and returns the
validated value.  Moreover (a) whenever the general-facts extraction
fails on a turn routed to `extract_facts`, the entity table is untouched
and the extracted-entities field is the empty list (no entity
persisted); (b) when parameter extraction produced no validated object,
the send node dispatches no capability call; and (c) a *fenced* nested
object still decodes in full.  The correction to the claim is that a
nested object *outside* a markdown fence is truncated at its first
closing brace by the lazy bare pattern and fails to decode (see the
counterexample). -/
theorem claim_C2_amended_extraction {α : Type} (validate : Json → Option α) (v : α)
    (pre post : String) (kvs : List (String × Json))
    (hpre : ∀ c ∈ pre.data, c.toNat ≠ 123 ∧ c.toNat ≠ 96 ∧ c.toNat ≠ 60)
    (hpost : ∀ c ∈ post.data, c.toNat ≠ 96 ∧ c.toNat ≠ 60)
    (hok : flatOk kvs = true)
    (hval : validate (.jobj kvs) = some v) :
    extractStructured validate (pre ++ renderObjStr kvs ++ post) = .ok v
    ∧ (∀ raw db st, st.decision_outcome = some "extract_facts" →
        factsParseFailed raw = true →
        (extractGeneralFactsNode (some raw) db st).2 = db
        ∧ (extractGeneralFactsNode (some raw) db st).1.extracted_entities_json = some [])
    ∧ (∀ outcome st, (gmailSendActionNode true outcome none st).2 = [])
    ∧ extractStructured (fun j => some j)
        "\x60\x60\x60json\n\x7b\"a\": \x7b\"b\": 1\x7d\x7d\n\x60\x60\x60"
        = .ok (.jobj [("a", .jobj [("b", .jnum 1)])]) := by
  refine ⟨extractStructured_flat validate v pre post kvs hpre hpost hok hval, ?_, ?_, by rfl⟩
  · intro raw db st hd hfail
    unfold extractGeneralFactsNode
    rw [if_neg (by simp [hd])]
    dsimp only
    unfold factsParseFailed at hfail
    cases hp : factsParse raw
    · rw [hp] at hfail
      exact Bool.noConfusion hfail
    all_goals exact ⟨rfl, rfl⟩
  · intro outcome st
    simp [gmailSendActionNode]

/-- Claim C2, counterexample: a nested object embedded bare in prose is
inside the claim's scope ("including nested objects"), yet the lazy bare
pattern truncates the candidate at the *first* closing brace — the inner
one — so the decode step fails: the extractor returns a typed parse
failure instead of the decoded object. -/
theorem claim_C2_counterexample :
    extractStructured (fun j => some j) "prose \x7b\"a\": \x7b\"b\": 1\x7d\x7d more"
      = .error .parseError := by rfl

/-- Witness for `claim_C2_amended_extraction` at a concrete completion
embedding a two-field object in prose. -/
theorem claim_C2_amended_extraction_witness :
    extractStructured (fun j => some j)
      ("Here is the JSON you asked for: " ++
        renderObjStr [("name", .jstr "Milo"), ("age", .jnum 3)] ++ " Done.")
      = .ok (.jobj [("name", .jstr "Milo"), ("age", .jnum 3)]) :=
  (claim_C2_amended_extraction (fun j => some j) _
    "Here is the JSON you asked for: " " Done."
    [("name", .jstr "Milo"), ("age", .jnum 3)]
    (by decide) (by decide) (by rfl) rfl).1

end ElderCare
